import Mathlib

/-!
# CHIP-8 interpreter (`internal/emulator.go`): embedding and verified properties

The Go `Emulator` struct is embedded as a record of total functions (one per
fixed-size array) together with explicit bounds checks at every index
expression whose index is not bounded by construction.  A Go run-time panic
(index or slice bound out of range) is the result `none`.  Machine integers
are natural numbers with an explicit reduction modulo `2^8` or `2^16` at every
operation that can wrap.

`Execute` returns both the state after the call and the returned `error`
(`none` for `nil`), so that statements about the state after a failed call are
meaningful.
-/

namespace Chip8

/-! ## Constants -/

@[simp] def RAM_SIZE : Nat := 4 * 1024
@[simp] def SCREEN_WIDTH : Nat := 64
@[simp] def SCREEN_HEIGHT : Nat := 32
@[simp] def REGISTER_COUNT : Nat := 16
@[simp] def STACK_SIZE : Nat := 16
@[simp] def KEY_COUNT : Nat := 16
@[simp] def START_ADDRESS : Nat := 0x200

/-! ## State -/

/-- The `Emulator` struct.  Each array field is a function on indexes; only the
indexes below the array length are ever read or written. -/
structure Emulator where
  programCount : Nat
  ram : Nat → Nat
  screen : Nat → Bool
  valueRegisters : Nat → Nat
  indexRegister : Nat
  stackPointer : Nat
  stack : Nat → Nat
  keys : Nat → Bool
  delayTimer : Nat
  soundTimer : Nat

/-- Array assignment `a[i] = v`. -/
def setAt {α : Type} (a : Nat → α) (i : Nat) (v : α) : Nat → α :=
  fun j => if j = i then v else a j

/-- Every field holds a value of its Go type (`byte` below `2^8`, `uint16`
below `2^16`). -/
structure Emulator.WF (e : Emulator) : Prop where
  pc_lt : e.programCount < 65536
  ram_lt : ∀ a, e.ram a < 256
  reg_lt : ∀ i, e.valueRegisters i < 256
  index_lt : e.indexRegister < 65536
  sp_lt : e.stackPointer < 65536
  stack_lt : ∀ i, e.stack i < 65536
  delay_lt : e.delayTimer < 256
  sound_lt : e.soundTimer < 256

/-- The two library calls made by `Execute`: `bcd.FromUint8` (package
`github.com/albenik/bcd`) and the value returned by `rand.Int()`. -/
structure Extern where
  FromUint8 : Nat → Nat
  randInt : Nat

/-- The struct literal `Emulator{programCount: START_ADDRESS}`: every other
field has its zero value. -/
def zeroEmulator : Emulator where
  programCount := START_ADDRESS
  ram := fun _ => 0
  screen := fun _ => false
  valueRegisters := fun _ => 0
  indexRegister := 0
  stackPointer := 0
  stack := fun _ => 0
  keys := fun _ => false
  delayTimer := 0
  soundTimer := 0

/-- Go `copy(dst[lo:hi], src)`: copies `min (hi - lo) (len src)` elements. -/
def copyInto (dst : Nat → Nat) (lo hi : Nat) (src : List Nat) : Nat → Nat :=
  fun j => if lo ≤ j ∧ j < hi ∧ j - lo < src.length then src.getD (j - lo) 0 else dst j

/-- `NewEmulator`; the table `FontSet` is declared in a file that is not part
of the sources at hand and is passed in. -/
def NewEmulator (FontSet : List Nat) : Emulator :=
  { zeroEmulator with ram := copyInto zeroEmulator.ram 0 RAM_SIZE FontSet }

/-- `ScreenBuffer`: the framebuffer as a slice of `64 * 32` cells. -/
def ScreenBuffer (e : Emulator) : List Bool :=
  (List.range (SCREEN_WIDTH * SCREEN_HEIGHT)).map e.screen

/-- `Input`: `e.keys[index] = pressed`, a panic when `index` is out of range. -/
def Input (e : Emulator) (index : Int) (pressed : Bool) : Option Emulator :=
  if 0 ≤ index ∧ index < KEY_COUNT then
    some { e with keys := setAt e.keys index.toNat pressed }
  else none

/-- `Load`: the slice expression `e.ram[START_ADDRESS:START_ADDRESS+len(data)]`
panics when its upper bound exceeds the array length. -/
def Load (e : Emulator) (data : List Nat) : Option Emulator :=
  if START_ADDRESS + data.length ≤ RAM_SIZE then
    some { e with ram := copyInto e.ram START_ADDRESS (START_ADDRESS + data.length) data }
  else none

/-- `Push`: write at the stack pointer, then increment it. -/
def Push (e : Emulator) (value : Nat) : Option Emulator :=
  if e.stackPointer < STACK_SIZE then
    some { e with
      stack := setAt e.stack e.stackPointer value
      stackPointer := (e.stackPointer + 1) % 65536 }
  else none

/-- `Pop`: decrement the stack pointer (a `uint16`, so `0` wraps to `65535`),
then read at it. -/
def Pop (e : Emulator) : Option (Emulator × Nat) :=
  let sp := (e.stackPointer + 65535) % 65536
  if sp < STACK_SIZE then some ({ e with stackPointer := sp }, e.stack sp) else none

/-- `TickTimers`; the second component is what was printed on standard
output.  The decrement `--` of a `byte` is subtraction modulo `2^8`. -/
def TickTimers (e : Emulator) : Emulator × List String :=
  let e1 := if e.delayTimer > 0 then { e with delayTimer := (e.delayTimer + 255) % 256 } else e
  if e1.soundTimer > 0 then
    ({ e1 with soundTimer := (e1.soundTimer + 255) % 256 },
      if e1.soundTimer = 1 then ["BEEP"] else [])
  else (e1, [])

/-- `Fetch`: the two reads panic when `pc` or `pc + 1` (a `uint16` sum) is not
below the memory size. -/
def Fetch (e : Emulator) : Option (Emulator × Nat) :=
  if e.programCount < RAM_SIZE then
    let higher := e.ram e.programCount
    if (e.programCount + 1) % 65536 < RAM_SIZE then
      let lower := e.ram ((e.programCount + 1) % 65536)
      let opcode := ((higher <<< 8) % 65536) ||| lower
      some ({ e with programCount := (e.programCount + 2) % 65536 }, opcode)
    else none
  else none

/-- Lower-case hexadecimal without leading zeros, the `%x` verb of `fmt`. -/
def hex (n : Nat) : String := String.mk (Nat.toDigits 16 n)

/-- `unsupportedOpcode`: the text of the returned error. -/
def unsupportedOpcode (opcode : Nat) : String := "unsupported opcode " ++ hex opcode

/-- `overflowAdd` on two bytes. -/
def overflowAdd (a b : Nat) : Nat × Bool :=
  if 255 - a < b then ((a + b) % 256, true) else ((a + b) % 256, false)

/-- `overflowSubtract` on two bytes. -/
def overflowSubtract (a b : Nat) : Nat × Bool :=
  if a < b then ((a + 256 - b) % 256, true) else ((a + 256 - b) % 256, false)

/-! ## Execute -/

/-- Outcome of `Execute`: `none` is a run-time panic, otherwise the state
after the call and the returned error (`none` for `nil`). -/
abbrev Outcome := Option (Emulator × Option String)

/-- `case 0`: `0000`, `00E0`, `00EE`. -/
def execute0 (e : Emulator) (opcode b3 b4 : Nat) : Outcome :=
  if opcode = 0 then some (e, none)
  else if b3 = 0xE then
    let e1 := if b4 = 0 then { e with screen := fun _ => false } else e
    if b4 = 0xE then
      (Pop e1).map fun p => ({ p.1 with programCount := p.2 }, none)
    else some (e1, none)
  else some (e, some (unsupportedOpcode opcode))

/-- `case 8`: the register-to-register operations. -/
def execute8 (e : Emulator) (opcode b2 b3 b4 : Nat) : Outcome :=
  let vx := e.valueRegisters b2
  let vy := e.valueRegisters b3
  if b4 = 0 then
    some ({ e with valueRegisters := setAt e.valueRegisters b2 vy }, none)
  else if b4 = 1 then
    some ({ e with valueRegisters := setAt e.valueRegisters b2 (vx ||| vy) }, none)
  else if b4 = 2 then
    some ({ e with valueRegisters := setAt e.valueRegisters b2 (vx &&& vy) }, none)
  else if b4 = 3 then
    some ({ e with valueRegisters := setAt e.valueRegisters b2 (vx ^^^ vy) }, none)
  else if b4 = 4 then
    let r := overflowAdd vx vy
    let regs := if r.2 then setAt e.valueRegisters 0xF 1 else setAt e.valueRegisters 0xF 0
    some ({ e with valueRegisters := setAt regs b2 r.1 }, none)
  else if b4 = 5 then
    let r := overflowSubtract vx vy
    let regs := if r.2 then setAt e.valueRegisters 0xF 0 else setAt e.valueRegisters 0xF 1
    some ({ e with valueRegisters := setAt regs b2 r.1 }, none)
  else if b4 = 6 then
    let dropped := vx &&& 1
    let regs := setAt e.valueRegisters b2 (vx >>> 1)
    some ({ e with valueRegisters := setAt regs 0xF dropped }, none)
  else if b4 = 7 then
    let r := overflowSubtract vy vx
    let regs := if r.2 then setAt e.valueRegisters 0xF 0 else setAt e.valueRegisters 0xF 1
    some ({ e with valueRegisters := setAt regs b2 r.1 }, none)
  else if b4 = 0xE then
    let dropped := (vx >>> 7) &&& 1
    let regs := setAt e.valueRegisters b2 ((vx <<< 1) % 256)
    some ({ e with valueRegisters := setAt regs 0xF dropped }, none)
  else some (e, some (unsupportedOpcode opcode))

/-- Body of the inner loop of `DXYN` for column `xline`; the accumulator is the
framebuffer and the local `flipped`. -/
def drawPixel (xcoord ycoord yline pixels : Nat) (acc : (Nat → Bool) × Bool) (xline : Nat) :
    (Nat → Bool) × Bool :=
  if pixels &&& (0b10000000 >>> xline) ≠ 0 then
    let x := (xcoord + xline) % SCREEN_WIDTH
    let y := (ycoord + yline) % SCREEN_HEIGHT
    let index := x + SCREEN_WIDTH * y
    (setAt acc.1 index (!acc.1 index), acc.2 || acc.1 index)
  else acc

/-- Body of the outer loop of `DXYN` for row `yline`: the read of
`e.ram[address]` panics when the `uint16` address is not below the memory
size. -/
def drawRow (e : Emulator) (xcoord ycoord : Nat) (acc : (Nat → Bool) × Bool) (yline : Nat) :
    Option ((Nat → Bool) × Bool) :=
  let address := (e.indexRegister + yline) % 65536
  if address < RAM_SIZE then
    let pixels := e.ram address
    some ((List.range 8).foldl (drawPixel xcoord ycoord yline pixels) acc)
  else none

/-- `case 0xD`: `DXYN`. -/
def executeD (e : Emulator) (b2 b3 b4 : Nat) : Outcome :=
  let xcoord := e.valueRegisters b2
  let ycoord := e.valueRegisters b3
  let rows := b4
  ((List.range rows).foldlM (drawRow e xcoord ycoord) (e.screen, false)).map fun r =>
    ({ e with
        screen := r.1
        valueRegisters := if r.2 then setAt e.valueRegisters 0xF 1
                          else setAt e.valueRegisters 0xF 0 }, none)

/-- `case 0xE`: `EX9E`, `EXA1`.  The key array is indexed by the value of a
register, a panic when that value is not below `KEY_COUNT`. -/
def executeE (e : Emulator) (opcode b2 b3 b4 : Nat) : Outcome :=
  if b3 = 9 ∧ b4 = 0xE then
    if e.valueRegisters b2 < KEY_COUNT then
      if e.keys (e.valueRegisters b2) then
        some ({ e with programCount := (e.programCount + 2) % 65536 }, none)
      else some (e, none)
    else none
  else if b3 = 0xA ∧ b4 = 1 then
    if e.valueRegisters b2 < KEY_COUNT then
      if !e.keys (e.valueRegisters b2) then
        some ({ e with programCount := (e.programCount + 2) % 65536 }, none)
      else some (e, none)
    else none
  else some (e, some (unsupportedOpcode opcode))

/-- Body of the loop of `FX55`. -/
def storeStep (e : Emulator) (ram : Nat → Nat) (index : Nat) : Option (Nat → Nat) :=
  let address := (e.indexRegister + index) % 65536
  if address < RAM_SIZE then some (setAt ram address (e.valueRegisters index)) else none

/-- Body of the loop of `FX65`. -/
def loadStep (e : Emulator) (regs : Nat → Nat) (index : Nat) : Option (Nat → Nat) :=
  let address := (e.indexRegister + index) % 65536
  if address < RAM_SIZE then some (setAt regs index (e.ram address)) else none

/-- `case 0xF`: timers, key wait, index arithmetic, BCD, block store/load. -/
def executeF (ext : Extern) (e : Emulator) (opcode b2 b3 b4 : Nat) : Outcome :=
  if b3 = 0 then
    if b4 = 7 then
      some ({ e with valueRegisters := setAt e.valueRegisters b2 e.delayTimer }, none)
    else if b4 = 0xA then
      match (List.range KEY_COUNT).find? (fun i => e.keys i) with
      | some i => some ({ e with valueRegisters := setAt e.valueRegisters b2 (i % 256) }, none)
      | none => some ({ e with programCount := (e.programCount + 65534) % 65536 }, none)
    else some (e, some (unsupportedOpcode opcode))
  else if b3 = 1 then
    if b4 = 5 then some ({ e with delayTimer := e.valueRegisters b2 }, none)
    else if b4 = 8 then some ({ e with soundTimer := e.valueRegisters b2 }, none)
    else if b4 = 0xE then
      some ({ e with indexRegister := (e.indexRegister + e.valueRegisters b2) % 65536 }, none)
    else some (e, some (unsupportedOpcode opcode))
  else if b3 = 2 ∧ b4 = 9 then
    some ({ e with indexRegister := (e.valueRegisters b2 * 5) % 65536 }, none)
  else if b3 = 3 ∧ b4 = 3 then
    let b := ext.FromUint8 (e.valueRegisters b2) % 256
    let a0 := e.indexRegister
    let a1 := (e.indexRegister + 1) % 65536
    let a2 := (e.indexRegister + 2) % 65536
    if a0 < RAM_SIZE ∧ a1 < RAM_SIZE ∧ a2 < RAM_SIZE then
      some ({ e with
        ram := setAt (setAt (setAt e.ram a0 (b &&& 0b100)) a1 (b &&& 0b010)) a2 (b &&& 0b001) },
        none)
    else none
  else if b3 = 5 ∧ b4 = 5 then
    ((List.range b2).foldlM (storeStep e) e.ram).map fun ram => ({ e with ram := ram }, none)
  else if b3 = 6 ∧ b4 = 5 then
    ((List.range b2).foldlM (loadStep e) e.valueRegisters).map fun regs =>
      ({ e with valueRegisters := regs }, none)
  else some (e, some (unsupportedOpcode opcode))

/-- `Execute`.  Register indexes `b2`, `b3` are nibbles and `0xF` is a constant,
so the register array is never indexed out of range; the framebuffer index
`x + 64 * y` has `x < 64` and `y < 32`. -/
def Execute (ext : Extern) (e : Emulator) (opcode : Nat) : Outcome :=
  let b1 := (opcode &&& 0xF000) >>> 12
  let b2 := (opcode &&& 0x0F00) >>> 8
  let b3 := (opcode &&& 0x00F0) >>> 4
  let b4 := opcode &&& 0x000F
  if b1 = 0 then execute0 e opcode b3 b4
  else if b1 = 1 then
    some ({ e with programCount := opcode &&& 0xFFF }, none)
  else if b1 = 2 then
    (Push e e.programCount).map fun e1 => ({ e1 with programCount := opcode &&& 0xFFF }, none)
  else if b1 = 3 then
    if e.valueRegisters b2 = (opcode &&& 0xFF) % 256 then
      some ({ e with programCount := (e.programCount + 2) % 65536 }, none)
    else some (e, none)
  else if b1 = 4 then
    if e.valueRegisters b2 ≠ (opcode &&& 0xFF) % 256 then
      some ({ e with programCount := (e.programCount + 2) % 65536 }, none)
    else some (e, none)
  else if b1 = 5 then
    if e.valueRegisters b2 = e.valueRegisters b3 then
      some ({ e with programCount := (e.programCount + 2) % 65536 }, none)
    else some (e, none)
  else if b1 = 6 then
    some ({ e with valueRegisters := setAt e.valueRegisters b2 ((opcode &&& 0xFF) % 256) }, none)
  else if b1 = 7 then
    let increment := (opcode &&& 0xFF) % 256
    some ({ e with
      valueRegisters := setAt e.valueRegisters b2 ((e.valueRegisters b2 + increment) % 256) },
      none)
  else if b1 = 8 then execute8 e opcode b2 b3 b4
  else if b1 = 9 then
    if b4 ≠ 0 then some (e, some (unsupportedOpcode opcode))
    else if e.valueRegisters b2 ≠ e.valueRegisters b3 then
      some ({ e with programCount := (e.programCount + 2) % 65536 }, none)
    else some (e, none)
  else if b1 = 0xA then
    some ({ e with indexRegister := opcode &&& 0xFFF }, none)
  else if b1 = 0xB then
    some ({ e with programCount := (e.valueRegisters 0 + (opcode &&& 0xFFF)) % 65536 }, none)
  else if b1 = 0xC then
    let value := (opcode &&& 0xFF) % 256
    let random := ext.randInt % 256
    some ({ e with valueRegisters := setAt e.valueRegisters b2 (random &&& value) }, none)
  else if b1 = 0xD then executeD e b2 b3 b4
  else if b1 = 0xE then executeE e opcode b2 b3 b4
  else if b1 = 0xF then executeF ext e opcode b2 b3 b4
  else some (e, some (unsupportedOpcode opcode))

/-- `Tick`: fetch, then execute; the error returned by `Execute` is dropped. -/
def Tick (ext : Extern) (e : Emulator) : Option Emulator :=
  (Fetch e).bind fun p => (Execute ext p.1 p.2).map fun r => r.1

/-! ## Auxiliary definitions used in the statements -/

/-- Framebuffer index written by `DXYN` for sprite row `yline` and column
`xline` (the locals `x`, `y`, `index` of the inner loop). -/
def cellIndex (xcoord ycoord yline xline : Nat) : Nat :=
  (xcoord + xline) % 64 + 64 * ((ycoord + yline) % 32)

/-- Value of a hexadecimal digit character. -/
def hexDigitValue (c : Char) : Nat :=
  if c.toNat < 58 then c.toNat - 48 else c.toNat - 87

/-- Reads back a lower-case hexadecimal numeral. -/
def parseHex (s : String) : Nat :=
  s.data.foldl (fun acc c => 16 * acc + hexDigitValue c) 0

/-- A concrete `Extern` for evaluating `Execute` on sample states: the decimal
routine packs the two low decimal digits of its argument into one byte (tens in
the high nibble) and the random source returns `0`. -/
def sampleExtern : Extern := ⟨fun v => (v % 100 / 10) * 16 + v % 10, 0⟩

/-- State with `V1 = 200`, `V2 = 100`. -/
def arithState : Emulator :=
  { zeroEmulator with valueRegisters := setAt (setAt zeroEmulator.valueRegisters 1 200) 2 100 }

/-- State with `VF = 1`, all other registers `0`. -/
def flagState : Emulator :=
  { zeroEmulator with valueRegisters := setAt zeroEmulator.valueRegisters 0xF 1 }

/-- State with `V0 = 0x7B` and `I = 0x300`. -/
def bcdState : Emulator :=
  { zeroEmulator with
    valueRegisters := setAt zeroEmulator.valueRegisters 0 0x7B
    indexRegister := 0x300 }

/-- State with `V0 = 1`, `V1 = 2`, `V2 = 3` and `I = 0x300`. -/
def storeState : Emulator :=
  { zeroEmulator with
    valueRegisters := setAt (setAt (setAt zeroEmulator.valueRegisters 0 1) 1 2) 2 3
    indexRegister := 0x300 }

/-- State with memory bytes `1, 2, 3` at `0x300..0x302` and `I = 0x300`. -/
def loadState : Emulator :=
  { zeroEmulator with
    ram := setAt (setAt (setAt zeroEmulator.ram 0x300 1) 0x301 2) 0x302 3
    indexRegister := 0x300 }

/-- State with `V0 = 60`, `V1 = 30`, `I = 0x300` and a solid 8x4 sprite
(`0xFF` four times) at `0x300`. -/
def spriteState : Emulator :=
  { zeroEmulator with
    valueRegisters := setAt (setAt zeroEmulator.valueRegisters 0 60) 1 30
    ram := setAt (setAt (setAt (setAt zeroEmulator.ram 0x300 0xFF) 0x301 0xFF) 0x302 0xFF)
      0x303 0xFF
    indexRegister := 0x300 }

/-- The state `spriteState` with the framebuffer cell `(60, 30)` lit. -/
def litSpriteState : Emulator :=
  { spriteState with screen := setAt spriteState.screen (60 + 64 * 30) true }

/-- An outcome that, whenever it carries an error, carries the message `m`
together with the state `e`. -/
def ErrorAtomic (e : Emulator) (m : String) (o : Outcome) : Prop :=
  ∀ e' msg, o = some (e', some msg) → e' = e ∧ msg = m

/-! ## Host loop (`main.go`): keyboard handling -/

/-- The values of `sdl.Keycode` that `key2Button` tells apart: the sixteen
constants named in its `switch` (pairwise distinct, as the cases of a Go
`switch`) and any other key code. -/
inductive Keycode where
  | K_1 | K_2 | K_3 | K_4
  | K_q | K_w | K_e | K_r
  | K_a | K_s | K_d | K_f
  | K_z | K_x | K_c | K_v
  | other (code : Nat)

/-- `key2Button`: the key index of a key code, `-1` for an unmapped key. -/
def key2Button : Keycode → Int
  | .K_1 => 0x1
  | .K_2 => 0x2
  | .K_3 => 0x3
  | .K_4 => 0xC
  | .K_q => 0x4
  | .K_w => 0x5
  | .K_e => 0x6
  | .K_r => 0xD
  | .K_a => 0x7
  | .K_s => 0x8
  | .K_d => 0x9
  | .K_f => 0xE
  | .K_z => 0xA
  | .K_x => 0x0
  | .K_c => 0xB
  | .K_v => 0xF
  | .other _ => -1

/-- The `sdl.KEYDOWN` (`pressed = true`) and `sdl.KEYUP` (`pressed = false`)
cases of the event loop of `emulatorMain`: the key is forwarded to `Input` when
`button > 0`. -/
def hostKeyEvent (e : Emulator) (key : Keycode) (pressed : Bool) : Option Emulator :=
  let button := key2Button key
  if button > 0 then Input e button pressed else some e

/-! ## Iteration -/

/-- The state after `n` calls of `Tick`. -/
def ticks (ext : Extern) : Nat → Emulator → Option Emulator
  | 0, e => some e
  | n + 1, e => (ticks ext n e).bind (Tick ext)

/-- The state after `n` calls of `TickTimers`. -/
def tickTimersN : Nat → Emulator → Emulator
  | 0, e => e
  | n + 1, e => (TickTimers (tickTimersN n e)).1

/-- An outcome whose state, when there is one, has the key flags of `e`. -/
def KeysKept (e : Emulator) (o : Outcome) : Prop :=
  ∀ e' r, o = some (e', r) → e'.keys = e.keys

/-! ## More sample states -/

/-- State with `delayTimer = 2` and `soundTimer = 1`. -/
def timerState : Emulator :=
  { zeroEmulator with delayTimer := 2, soundTimer := 1 }

/-- State with the program bytes `0x60 0x05` at `0x200`. -/
def programState : Emulator :=
  { zeroEmulator with ram := setAt (setAt zeroEmulator.ram 0x200 0x60) 0x201 0x05 }

/-- State with the instruction `F30A` at `0x200` and no key pressed. -/
def waitKeyState : Emulator :=
  { zeroEmulator with ram := setAt (setAt zeroEmulator.ram 0x200 0xF3) 0x201 0x0A }

/-- State with the instruction `F30A` at `0x200` and keys `5` and `9` pressed. -/
def keyDownState : Emulator :=
  { waitKeyState with keys := setAt (setAt zeroEmulator.keys 9 true) 5 true }

/-- State with the unsupported word `8008` at `0x200`, `V0 = 0x80`, `V1 = 0x08`
and `I = 0x200`. -/
def rejectedWordState : Emulator :=
  { zeroEmulator with
    ram := setAt (setAt zeroEmulator.ram 0x200 0x80) 0x201 0x08
    valueRegisters := setAt (setAt zeroEmulator.valueRegisters 0 0x80) 1 0x08
    indexRegister := 0x200 }

/-- State with the supported word `F255` at `0x200`, `V0 = 0x80`, `V1 = 0x08`
and `I = 0x200`. -/
def acceptedWordState : Emulator :=
  { zeroEmulator with
    ram := setAt (setAt zeroEmulator.ram 0x200 0xF2) 0x201 0x55
    valueRegisters := setAt (setAt zeroEmulator.valueRegisters 0 0x80) 1 0x08
    indexRegister := 0x200 }

/-! ## Basic lemmas -/

theorem setAt_apply {α : Type} (a : Nat → α) (i : Nat) (v : α) (j : Nat) :
    setAt a i v j = if j = i then v else a j := rfl

theorem setAt_lt {a : Nat → Nat} {n : Nat} (h : ∀ j, a j < n) (i : Nat) {v : Nat} (hv : v < n) :
    ∀ j, setAt a i v j < n := by
  intro j
  rw [setAt_apply]
  split
  · exact hv
  · exact h j

theorem zeroEmulator_WF : zeroEmulator.WF :=
  ⟨by decide, fun _ => (by decide : (0 : Nat) < 256), fun _ => (by decide : (0 : Nat) < 256),
    by decide, by decide, fun _ => (by decide : (0 : Nat) < 65536), by decide, by decide⟩

theorem WF_withRegisters {e : Emulator} (h : e.WF) {regs : Nat → Nat} (hr : ∀ i, regs i < 256) :
    Emulator.WF { e with valueRegisters := regs } :=
  ⟨h.pc_lt, h.ram_lt, hr, h.index_lt, h.sp_lt, h.stack_lt, h.delay_lt, h.sound_lt⟩

theorem arithState_WF : arithState.WF :=
  WF_withRegisters zeroEmulator_WF
    (setAt_lt (setAt_lt zeroEmulator_WF.reg_lt 1 (by decide)) 2 (by decide))

theorem flagState_WF : flagState.WF :=
  WF_withRegisters zeroEmulator_WF (setAt_lt zeroEmulator_WF.reg_lt 0xF (by decide))

/-! ## Decoding -/

theorem nibble_shift (x k : Nat) : (x &&& (15 <<< k)) >>> k = x / 2 ^ k % 16 := by
  apply Nat.eq_of_testBit_eq
  intro j
  have h16 : (16 : Nat) = 2 ^ 4 := by norm_num
  have h15 : (15 : Nat) = 2 ^ 4 - 1 := by norm_num
  rw [h16, Nat.testBit_mod_two_pow, ← Nat.shiftRight_eq_div_pow, Nat.testBit_shiftRight,
    Nat.testBit_shiftRight, Nat.testBit_and, Nat.testBit_shiftLeft, h15,
    Nat.testBit_two_pow_sub_one]
  simp [Bool.and_comm]

theorem decode_b1 (op : Nat) : (op &&& 0xF000) >>> 12 = op / 4096 % 16 := nibble_shift op 12
theorem decode_b2 (op : Nat) : (op &&& 0x0F00) >>> 8 = op / 256 % 16 := nibble_shift op 8
theorem decode_b3 (op : Nat) : (op &&& 0x00F0) >>> 4 = op / 16 % 16 := nibble_shift op 4
theorem decode_b4 (op : Nat) : op &&& 0x000F = op % 16 := Nat.and_pow_two_sub_one_eq_mod op 4
theorem decode_nnn (op : Nat) : op &&& 0xFFF = op % 4096 := Nat.and_pow_two_sub_one_eq_mod op 12
theorem decode_nn (op : Nat) : op &&& 0xFF = op % 256 := Nat.and_pow_two_sub_one_eq_mod op 8

/-- Dispatch of a word `8XYN`. -/
theorem Execute_8XYN (ext : Extern) (e : Emulator) (X Y N : Nat) (hX : X < 16) (hY : Y < 16)
    (hN : N < 16) :
    Execute ext e (0x8000 + 0x100 * X + 0x10 * Y + N) =
      execute8 e (0x8000 + 0x100 * X + 0x10 * Y + N) X Y N := by
  have h1 : ((0x8000 + 0x100 * X + 0x10 * Y + N) &&& 0xF000) >>> 12 = 8 := by
    rw [decode_b1]; omega
  have h2 : ((0x8000 + 0x100 * X + 0x10 * Y + N) &&& 0x0F00) >>> 8 = X := by
    rw [decode_b2]; omega
  have h3 : ((0x8000 + 0x100 * X + 0x10 * Y + N) &&& 0x00F0) >>> 4 = Y := by
    rw [decode_b3]; omega
  have h4 : (0x8000 + 0x100 * X + 0x10 * Y + N) &&& 0x000F = N := by
    rw [decode_b4]; omega
  simp only [Execute, h1, h2, h3, h4]
  simp

/-! ## `8XY4` and `8XY5`: arithmetic flags -/

/-- What `8XY4` does on every register pair of a well-formed state: it returns
no error and leaves `VX = (old VX + old VY) mod 256`, also for `X = 0xF`; for
`X != 0xF` it leaves `VF = 1` when the old `VX + VY` exceeds 255 and `VF = 0`
otherwise. -/
theorem add_carry_flag (ext : Extern) (e : Emulator) (X Y : Nat) (hwf : e.WF) (hX : X < 16)
    (hY : Y < 16) :
    ∃ e', Execute ext e (0x8004 + 0x100 * X + 0x10 * Y) = some (e', none) ∧
      e'.valueRegisters X = (e.valueRegisters X + e.valueRegisters Y) % 256 ∧
      (X ≠ 0xF → e'.valueRegisters 0xF =
        (if e.valueRegisters X + e.valueRegisters Y > 255 then 1 else 0)) := by
  have h := Execute_8XYN ext e X Y 4 hX hY (by omega)
  have hop : 0x8000 + 0x100 * X + 0x10 * Y + 4 = 0x8004 + 0x100 * X + 0x10 * Y := by omega
  rw [hop] at h
  have hx := hwf.reg_lt X
  have hy := hwf.reg_lt Y
  rw [h]
  simp only [execute8, show (4 : Nat) ≠ 0 by decide, show (4 : Nat) ≠ 1 by decide,
    show (4 : Nat) ≠ 2 by decide, show (4 : Nat) ≠ 3 by decide, if_false, if_true]
  refine ⟨_, rfl, ?_, ?_⟩
  · simp [setAt_apply, overflowAdd]
    split <;> rfl
  · intro hne
    have : (15 : Nat) ≠ X := fun h15 => hne h15.symm
    by_cases hc : 255 - e.valueRegisters X < e.valueRegisters Y
    · have : e.valueRegisters X + e.valueRegisters Y > 255 := by omega
      simp [overflowAdd, setAt_apply, *]
    · have : ¬ e.valueRegisters X + e.valueRegisters Y > 255 := by omega
      simp [overflowAdd, setAt_apply, *]

/-- Instance of `add_carry_flag` at `V1 = 200`, `V2 = 100`, word `0x8124`. -/
theorem add_carry_flag_witness :
    arithState.WF ∧ 1 < 16 ∧ 2 < 16 ∧
    ∃ e', Execute sampleExtern arithState (0x8004 + 0x100 * 1 + 0x10 * 2) = some (e', none) ∧
      e'.valueRegisters 1 = (arithState.valueRegisters 1 + arithState.valueRegisters 2) % 256 ∧
      (1 ≠ 0xF → e'.valueRegisters 0xF =
        (if arithState.valueRegisters 1 + arithState.valueRegisters 2 > 255 then 1 else 0)) :=
  ⟨arithState_WF, by decide, by decide,
    add_carry_flag sampleExtern arithState 1 2 arithState_WF (by decide) (by decide)⟩

/-- Claim C1 fails on the code at `X = Y = 0xF`: with `VF = 1` the word
`0x8FF4` computes the sum `2` without carry, writes the flag `0` into `VF` and
then overwrites it with the sum, so `VF = 2` although the flag value is `0`.
The sum half of the claim holds there (`VX` is `VF` and holds
`(1 + 1) mod 256`).  The shift `0x8FF6` of the same `switch` writes `VF` last
and leaves the flag `1`, the low bit of the old `VF`, in `VF`. -/
theorem add_carry_flag_fails_at_VF :
    flagState.WF ∧
    (∃ e', Execute sampleExtern flagState (0x8004 + 0x100 * 0xF + 0x10 * 0xF) = some (e', none) ∧
      e'.valueRegisters 0xF = 2 ∧
      e'.valueRegisters 0xF =
        (flagState.valueRegisters 0xF + flagState.valueRegisters 0xF) % 256 ∧
      ¬ (e'.valueRegisters 0xF =
        (if flagState.valueRegisters 0xF + flagState.valueRegisters 0xF > 255 then 1 else 0))) ∧
    (∃ e', Execute sampleExtern flagState (0x8006 + 0x100 * 0xF + 0x10 * 0xF) = some (e', none) ∧
      e'.valueRegisters 0xF = flagState.valueRegisters 0xF &&& 1) :=
  ⟨flagState_WF, ⟨_, rfl, rfl, rfl, by decide⟩, ⟨_, rfl, rfl⟩⟩

/-- What `8XY5` does on every register pair of a well-formed state: it returns
no error and leaves `VX = (old VX - old VY) mod 256`, also for `X = 0xF`; for
`X != 0xF` it leaves `VF = 0` when the old `VX` is below the old `VY` and
`VF = 1` otherwise. -/
theorem sub_borrow_flag (ext : Extern) (e : Emulator) (X Y : Nat) (hwf : e.WF) (hX : X < 16)
    (hY : Y < 16) :
    ∃ e', Execute ext e (0x8005 + 0x100 * X + 0x10 * Y) = some (e', none) ∧
      (e'.valueRegisters X : Int) = ((e.valueRegisters X : Int) - e.valueRegisters Y) % 256 ∧
      (X ≠ 0xF → e'.valueRegisters 0xF =
        (if e.valueRegisters X < e.valueRegisters Y then 0 else 1)) := by
  have h := Execute_8XYN ext e X Y 5 hX hY (by omega)
  have hop : 0x8000 + 0x100 * X + 0x10 * Y + 5 = 0x8005 + 0x100 * X + 0x10 * Y := by omega
  rw [hop] at h
  have hx := hwf.reg_lt X
  have hy := hwf.reg_lt Y
  rw [h]
  simp only [execute8, show (5 : Nat) ≠ 0 by decide, show (5 : Nat) ≠ 1 by decide,
    show (5 : Nat) ≠ 2 by decide, show (5 : Nat) ≠ 3 by decide, show (5 : Nat) ≠ 4 by decide,
    if_false, if_true]
  refine ⟨_, rfl, ?_, ?_⟩
  · have hval : (overflowSubtract (e.valueRegisters X) (e.valueRegisters Y)).1 =
        (e.valueRegisters X + 256 - e.valueRegisters Y) % 256 := by
      unfold overflowSubtract; split <;> rfl
    simp only [setAt_apply, if_true, hval]
    omega
  · intro hne
    have : (15 : Nat) ≠ X := fun h15 => hne h15.symm
    by_cases hc : e.valueRegisters X < e.valueRegisters Y <;>
      simp [overflowSubtract, setAt_apply, *]

/-- Instance of `sub_borrow_flag` at `V2 = 100`, `V1 = 200`, word `0x8215`. -/
theorem sub_borrow_flag_witness :
    arithState.WF ∧ 2 < 16 ∧ 1 < 16 ∧
    ∃ e', Execute sampleExtern arithState (0x8005 + 0x100 * 2 + 0x10 * 1) = some (e', none) ∧
      (e'.valueRegisters 2 : Int) =
        ((arithState.valueRegisters 2 : Int) - arithState.valueRegisters 1) % 256 ∧
      (2 ≠ 0xF → e'.valueRegisters 0xF =
        (if arithState.valueRegisters 2 < arithState.valueRegisters 1 then 0 else 1)) :=
  ⟨arithState_WF, by decide, by decide,
    sub_borrow_flag sampleExtern arithState 2 1 arithState_WF (by decide) (by decide)⟩

/-- Claim C2 fails on the code at `X = Y = 0xF`: with `VF = 1` the word
`0x8FF5` computes `1 - 1 = 0` without borrow, writes the flag `1` into `VF` and
then overwrites it with the difference, so `VF = 0` although the flag value is
`1`.  The difference half of the claim holds there (`VX` is `VF` and holds
`(1 - 1) mod 256`).  The shift `0x8FF6` of the same `switch` writes `VF` last
and leaves the flag `1`, the low bit of the old `VF`, in `VF`. -/
theorem sub_borrow_flag_fails_at_VF :
    flagState.WF ∧
    (∃ e', Execute sampleExtern flagState (0x8005 + 0x100 * 0xF + 0x10 * 0xF) = some (e', none) ∧
      e'.valueRegisters 0xF = 0 ∧
      (e'.valueRegisters 0xF : Int) =
        ((flagState.valueRegisters 0xF : Int) - flagState.valueRegisters 0xF) % 256 ∧
      ¬ (e'.valueRegisters 0xF =
        (if flagState.valueRegisters 0xF < flagState.valueRegisters 0xF then 0 else 1))) ∧
    (∃ e', Execute sampleExtern flagState (0x8006 + 0x100 * 0xF + 0x10 * 0xF) = some (e', none) ∧
      e'.valueRegisters 0xF = flagState.valueRegisters 0xF &&& 1) :=
  ⟨flagState_WF, ⟨_, rfl, rfl, by decide, by decide⟩, ⟨_, rfl, rfl⟩⟩

/-! ## `FX33`, `FX55`, `FX65`: memory transfers -/

theorem and_four_ne_one (b : Nat) : b &&& 4 ≠ 1 := by
  have h := Nat.and_two_pow b 2
  have h4 : (2 : Nat) ^ 2 = 4 := by norm_num
  rw [h4] at h
  rw [h]
  cases b.testBit 2 <;> simp

theorem and_one_ne_three (b : Nat) : b &&& 1 ≠ 3 := by
  have h := Nat.and_two_pow b 0
  have h1 : (2 : Nat) ^ 0 = 1 := by norm_num
  rw [h1] at h
  rw [h]
  cases b.testBit 0 <;> simp

/-- Claim C3 fails on the code: with `V0 = 0x7B` (123) and `I = 0x300`, the
word `0xF033` stores the single byte `b` returned by the decimal routine masked
with `4`, `2` and `1`.  Whatever that routine returns, the byte at `0x300` is
not the hundreds digit `1` and the byte at `0x302` is not the ones digit `3`. -/
theorem bcd_stores_masked_byte :
    (bcdState.valueRegisters 0 = 0x7B ∧ bcdState.indexRegister = 0x300) ∧
    ∀ ext : Extern, ∃ e', Execute ext bcdState 0xF033 = some (e', none) ∧
      e'.ram 0x300 = (ext.FromUint8 0x7B % 256) &&& 4 ∧
      e'.ram 0x301 = (ext.FromUint8 0x7B % 256) &&& 2 ∧
      e'.ram 0x302 = (ext.FromUint8 0x7B % 256) &&& 1 ∧
      e'.ram 0x300 ≠ 0x7B / 100 ∧ e'.ram 0x302 ≠ 0x7B % 10 :=
  ⟨⟨rfl, rfl⟩, fun ext => ⟨_, rfl, rfl, rfl, rfl,
    and_four_ne_one (ext.FromUint8 0x7B % 256), and_one_ne_three (ext.FromUint8 0x7B % 256)⟩⟩

/-- Claim C4 fails on the code: with `V0 = 1`, `V1 = 2`, `V2 = 3` and
`I = 0x300`, the word `0xF255` stores `V0` and `V1` only; the byte at
`I + 2` keeps its old value `0` instead of receiving `V2 = 3`. -/
theorem store_skips_VX :
    (storeState.valueRegisters 2 = 3 ∧ storeState.indexRegister = 0x300 ∧
      storeState.ram 0x302 = 0) ∧
    ∃ e', Execute sampleExtern storeState 0xF255 = some (e', none) ∧
      e'.ram 0x300 = 1 ∧ e'.ram 0x301 = 2 ∧ e'.ram 0x302 = 0 :=
  ⟨⟨rfl, rfl, rfl⟩, _, rfl, rfl, rfl, rfl⟩

/-- Claim C5 fails on the code: with memory bytes `1, 2, 3` at `0x300..0x302`
and `I = 0x300`, the word `0xF265` loads `V0` and `V1` only; `V2` keeps its old
value `0` instead of receiving the byte `3` at `I + 2`. -/
theorem load_skips_VX :
    (loadState.ram 0x302 = 3 ∧ loadState.indexRegister = 0x300 ∧
      loadState.valueRegisters 2 = 0) ∧
    ∃ e', Execute sampleExtern loadState 0xF265 = some (e', none) ∧
      e'.valueRegisters 0 = 1 ∧ e'.valueRegisters 1 = 2 ∧ e'.valueRegisters 2 = 0 :=
  ⟨⟨rfl, rfl, rfl⟩, _, rfl, rfl, rfl, rfl⟩

/-! ## Unsupported opcodes -/

/-- Claim C9 fails on the code: the words `0x5001` and `0x00E1` match no
pattern of the opcode table, yet `Execute` returns no error for them.  `case 5`
never looks at the last nibble, so `0x5001` runs as `5XY0` (here `V0 = V0`,
the next instruction is skipped); `case 0` with third nibble `0xE` falls
through without an error when the last nibble is neither `0` nor `0xE`. -/
theorem unlisted_words_accepted (ext : Extern) (e : Emulator) :
    Execute ext e 0x5001 =
      some ({ e with programCount := (e.programCount + 2) % 65536 }, none) ∧
    Execute ext e 0x00E1 = some (e, none) := by
  have h1 : (0x5001 &&& 0xF000) >>> 12 = 5 := by decide
  have h5 : (0x5001 &&& 0x0F00) >>> 8 = 0 := by decide
  have h6 : (0x5001 &&& 0x00F0) >>> 4 = 0 := by decide
  have h2 : (0x00E1 &&& 0xF000) >>> 12 = 0 := by decide
  have h3 : (0x00E1 &&& 0x00F0) >>> 4 = 0xE := by decide
  have h4 : 0x00E1 &&& 0x000F = 1 := by decide
  constructor
  · simp [Execute, h1, h5, h6]
  · simp [Execute, execute0, h2, h3, h4]

theorem atomic_nil (e : Emulator) (m : String) (x : Emulator) :
    ErrorAtomic e m (some (x, none)) := by
  intro e' msg h; cases h

theorem atomic_err (e : Emulator) (m : String) : ErrorAtomic e m (some (e, some m)) := by
  intro e' msg h; cases h; exact ⟨rfl, rfl⟩

theorem atomic_panic (e : Emulator) (m : String) : ErrorAtomic e m none := by
  intro e' msg h; cases h

theorem atomic_ite (e : Emulator) (m : String) (c : Prop) [Decidable c] (a b : Outcome)
    (ha : ErrorAtomic e m a) (hb : ErrorAtomic e m b) : ErrorAtomic e m (if c then a else b) := by
  split_ifs <;> assumption

theorem atomic_map (e : Emulator) (m : String) {α : Type} (x : Option α) (f : α → Emulator) :
    ErrorAtomic e m (x.map fun a => (f a, none)) := by
  intro e' msg h
  cases x with
  | none => cases h
  | some a => cases h

theorem execute0_atomic (e : Emulator) (opcode b3 b4 : Nat) :
    ErrorAtomic e (unsupportedOpcode opcode) (execute0 e opcode b3 b4) := by
  unfold execute0
  generalize unsupportedOpcode opcode = m
  repeat' first
    | apply atomic_map
    | apply atomic_nil
    | apply atomic_err
    | apply atomic_panic
    | apply atomic_ite

theorem execute8_atomic (e : Emulator) (opcode b2 b3 b4 : Nat) :
    ErrorAtomic e (unsupportedOpcode opcode) (execute8 e opcode b2 b3 b4) := by
  unfold execute8
  generalize unsupportedOpcode opcode = m
  repeat' first
    | apply atomic_nil
    | apply atomic_err
    | apply atomic_ite

theorem executeE_atomic (e : Emulator) (opcode b2 b3 b4 : Nat) :
    ErrorAtomic e (unsupportedOpcode opcode) (executeE e opcode b2 b3 b4) := by
  unfold executeE
  generalize unsupportedOpcode opcode = m
  repeat' first
    | apply atomic_nil
    | apply atomic_err
    | apply atomic_panic
    | apply atomic_ite

theorem executeF_atomic (ext : Extern) (e : Emulator) (opcode b2 b3 b4 : Nat) :
    ErrorAtomic e (unsupportedOpcode opcode) (executeF ext e opcode b2 b3 b4) := by
  unfold executeF
  generalize unsupportedOpcode opcode = m
  repeat' first
    | apply atomic_map
    | apply atomic_nil
    | apply atomic_err
    | apply atomic_panic
    | apply atomic_ite
    | (split <;> apply atomic_nil)

theorem Execute_atomic (ext : Extern) (e : Emulator) (opcode : Nat) :
    ErrorAtomic e (unsupportedOpcode opcode) (Execute ext e opcode) := by
  unfold Execute
  have h0 := execute0_atomic e opcode
  have h8 := execute8_atomic e opcode
  have hE := executeE_atomic e opcode
  have hF := executeF_atomic ext e opcode
  generalize unsupportedOpcode opcode = m at *
  repeat' first
    | apply atomic_map
    | apply atomic_nil
    | apply atomic_err
    | apply h0
    | apply h8
    | apply hE
    | apply hF
    | apply atomic_ite

theorem hexDigitValue_digitChar (k : Nat) (hk : k < 16) :
    hexDigitValue (Nat.digitChar k) = k := by
  interval_cases k <;> rfl

theorem toDigitsCore_value (fuel : Nat) : ∀ (n : Nat) (ds : List Char), n < fuel →
    ∃ front, Nat.toDigitsCore 16 fuel n ds = front ++ ds ∧
      front.foldl (fun acc c => 16 * acc + hexDigitValue c) 0 = n := by
  induction fuel with
  | zero => intro n ds h; omega
  | succ fuel ih =>
    intro n ds h
    unfold Nat.toDigitsCore
    by_cases h0 : n / 16 = 0
    · refine ⟨[Nat.digitChar (n % 16)], by simp [h0], ?_⟩
      simp only [List.foldl_cons, List.foldl_nil]
      rw [hexDigitValue_digitChar _ (Nat.mod_lt _ (by decide))]
      omega
    · obtain ⟨front, hfront, hval⟩ := ih (n / 16) (Nat.digitChar (n % 16) :: ds) (by omega)
      refine ⟨front ++ [Nat.digitChar (n % 16)], by simp [h0, hfront], ?_⟩
      rw [List.foldl_append, hval]
      simp only [List.foldl_cons, List.foldl_nil]
      rw [hexDigitValue_digitChar _ (Nat.mod_lt _ (by decide))]
      omega

theorem parseHex_hex (n : Nat) : parseHex (hex n) = n := by
  obtain ⟨front, hfront, hval⟩ := toDigitsCore_value (n + 1) n [] (by omega)
  simp only [parseHex, hex, Nat.toDigits, hfront, List.append_nil]
  exact hval

/-- Claim C10: whenever `Execute` returns an error, the state after the call
is the state before it, and the error text is `unsupported opcode` followed by
the hexadecimal numeral of the instruction word, from which the word is read
back. -/
theorem unsupported_is_atomic (ext : Extern) (e e' : Emulator) (opcode : Nat) (msg : String)
    (h : Execute ext e opcode = some (e', some msg)) :
    e' = e ∧ msg = "unsupported opcode " ++ hex opcode ∧ parseHex (hex opcode) = opcode :=
  ⟨(Execute_atomic ext e opcode e' msg h).1, (Execute_atomic ext e opcode e' msg h).2,
    parseHex_hex opcode⟩

/-- Instance of `unsupported_is_atomic` at the word `0x8008`. -/
theorem unsupported_is_atomic_witness :
    Execute sampleExtern zeroEmulator 0x8008 =
      some (zeroEmulator, some "unsupported opcode 8008") ∧
    (zeroEmulator = zeroEmulator ∧ "unsupported opcode 8008" = "unsupported opcode " ++ hex 0x8008 ∧
      parseHex (hex 0x8008) = 0x8008) :=
  ⟨rfl, unsupported_is_atomic sampleExtern zeroEmulator zeroEmulator 0x8008 _ rfl⟩

/-! ## `DXYN`: sprite drawing -/

theorem drawPixel_eq (vx vy r p : Nat) (acc : (Nat → Bool) × Bool) (c : Nat) :
    drawPixel vx vy r p acc c =
      if p &&& (128 >>> c) ≠ 0 then
        (setAt acc.1 (cellIndex vx vy r c) (!acc.1 (cellIndex vx vy r c)),
          acc.2 || acc.1 (cellIndex vx vy r c))
      else acc := by
  simp [drawPixel, cellIndex]

theorem cellIndex_col_inj {vx vy r c d : Nat} (hc : c < 64) (hd : d < 64)
    (h : cellIndex vx vy r c = cellIndex vx vy r d) : c = d := by
  unfold cellIndex at h; omega

theorem cellIndex_row_inj {vx vy r q c d : Nat} (hr : r < 32) (hq : q < 32)
    (h : cellIndex vx vy r c = cellIndex vx vy q d) : r = q := by
  unfold cellIndex at h; omega

theorem drawPixel_fold (vx vy r p : Nat) (s : Nat → Bool) (f : Bool) (k : Nat) (hk : k ≤ 64) :
    (∀ i, ((∃ c, c < k ∧ p &&& (128 >>> c) ≠ 0 ∧ cellIndex vx vy r c = i) →
              ((List.range k).foldl (drawPixel vx vy r p) (s, f)).1 i = !s i) ∧
          ((¬ ∃ c, c < k ∧ p &&& (128 >>> c) ≠ 0 ∧ cellIndex vx vy r c = i) →
              ((List.range k).foldl (drawPixel vx vy r p) (s, f)).1 i = s i)) ∧
    (((List.range k).foldl (drawPixel vx vy r p) (s, f)).2 = true ↔
      f = true ∨ ∃ c, c < k ∧ p &&& (128 >>> c) ≠ 0 ∧ s (cellIndex vx vy r c) = true) := by
  induction k with
  | zero => simp
  | succ k ih =>
    obtain ⟨ihs, ihf⟩ := ih (by omega)
    rw [List.range_succ, List.foldl_append, List.foldl_cons, List.foldl_nil, drawPixel_eq]
    generalize (List.range k).foldl (drawPixel vx vy r p) (s, f) = res at ihs ihf
    have hfresh : ¬ ∃ c, c < k ∧ p &&& (128 >>> c) ≠ 0 ∧ cellIndex vx vy r c = cellIndex vx vy r k := by
      rintro ⟨c, hc, -, he⟩
      have := cellIndex_col_inj (by omega) (by omega) he
      omega
    have hsame : res.1 (cellIndex vx vy r k) = s (cellIndex vx vy r k) := (ihs _).2 hfresh
    by_cases hb : p &&& (128 >>> k) ≠ 0
    · rw [if_pos hb]
      constructor
      · intro i
        by_cases hi : i = cellIndex vx vy r k
        · subst hi
          constructor
          · intro _; simp [setAt_apply, hsame]
          · intro h; exact absurd ⟨k, by omega, hb, rfl⟩ h
        · have hiff : (∃ c, c < k + 1 ∧ p &&& (128 >>> c) ≠ 0 ∧ cellIndex vx vy r c = i) ↔
              (∃ c, c < k ∧ p &&& (128 >>> c) ≠ 0 ∧ cellIndex vx vy r c = i) := by
            constructor
            · rintro ⟨c, hc, hbc, he⟩
              have : c ≠ k := by rintro rfl; exact hi he.symm
              exact ⟨c, by omega, hbc, he⟩
            · rintro ⟨c, hc, hbc, he⟩; exact ⟨c, by omega, hbc, he⟩
          rw [hiff]
          simp only [setAt_apply, if_neg hi]
          exact ihs i
      · simp only [Bool.or_eq_true, ihf, hsame]
        constructor
        · rintro (h | h)
          · rcases h with h | ⟨c, hc, hbc, hs⟩
            · exact Or.inl h
            · exact Or.inr ⟨c, by omega, hbc, hs⟩
          · exact Or.inr ⟨k, by omega, hb, h⟩
        · rintro (h | ⟨c, hc, hbc, hs⟩)
          · exact Or.inl (Or.inl h)
          · by_cases hck : c = k
            · subst hck; exact Or.inr hs
            · exact Or.inl (Or.inr ⟨c, by omega, hbc, hs⟩)
    · rw [if_neg hb]
      have hiff : ∀ q : Nat → Prop, (∃ c, c < k + 1 ∧ p &&& (128 >>> c) ≠ 0 ∧ q c) ↔
          (∃ c, c < k ∧ p &&& (128 >>> c) ≠ 0 ∧ q c) := by
        intro q
        constructor
        · rintro ⟨c, hc, hbc, he⟩
          have : c ≠ k := by rintro rfl; exact hb hbc
          exact ⟨c, by omega, hbc, he⟩
        · rintro ⟨c, hc, hbc, he⟩; exact ⟨c, by omega, hbc, he⟩
      refine ⟨fun i => ?_, ?_⟩
      · rw [hiff (fun c => cellIndex vx vy r c = i)]; exact ihs i
      · rw [hiff (fun c => s (cellIndex vx vy r c) = true)]; exact ihf

theorem drawRow_eq (e : Emulator) (vx vy : Nat) (acc : (Nat → Bool) × Bool) (r : Nat)
    (h : e.indexRegister + r < 4096) :
    drawRow e vx vy acc r =
      some ((List.range 8).foldl (drawPixel vx vy r (e.ram (e.indexRegister + r))) acc) := by
  have hm : (e.indexRegister + r) % 65536 = e.indexRegister + r := by omega
  simp [drawRow, hm, h]

theorem drawRow_fold (e : Emulator) (vx vy : Nat) (s : Nat → Bool) (f : Bool) (m : Nat)
    (hm : m ≤ 32) (hI : e.indexRegister + m ≤ 4096) :
    ∃ res, (List.range m).foldlM (drawRow e vx vy) (s, f) = some res ∧
      (∀ i, ((∃ r, r < m ∧ ∃ c, c < 8 ∧ e.ram (e.indexRegister + r) &&& (128 >>> c) ≠ 0 ∧
                cellIndex vx vy r c = i) → res.1 i = !s i) ∧
            ((¬ ∃ r, r < m ∧ ∃ c, c < 8 ∧ e.ram (e.indexRegister + r) &&& (128 >>> c) ≠ 0 ∧
                cellIndex vx vy r c = i) → res.1 i = s i)) ∧
      (res.2 = true ↔ f = true ∨ ∃ r, r < m ∧ ∃ c, c < 8 ∧
          e.ram (e.indexRegister + r) &&& (128 >>> c) ≠ 0 ∧ s (cellIndex vx vy r c) = true) := by
  induction m with
  | zero => exact ⟨(s, f), by simp⟩
  | succ m ih =>
    obtain ⟨res, hres, ihs, ihf⟩ := ih (by omega) (by omega)
    obtain ⟨hs, hf⟩ := drawPixel_fold vx vy m (e.ram (e.indexRegister + m)) res.1 res.2 8
      (by omega)
    refine ⟨(List.range 8).foldl (drawPixel vx vy m (e.ram (e.indexRegister + m))) res, ?_, ?_, ?_⟩
    · rw [List.range_succ, List.foldlM_append, hres]
      simp [drawRow_eq e vx vy res m (by omega)]
    · -- cells of row `m` were not touched by the rows before
      have hfresh : ∀ c, ¬ ∃ r, r < m ∧ ∃ d, d < 8 ∧
          e.ram (e.indexRegister + r) &&& (128 >>> d) ≠ 0 ∧
          cellIndex vx vy r d = cellIndex vx vy m c := by
        rintro c ⟨r, hr, d, -, -, he⟩
        have := cellIndex_row_inj (by omega) (by omega) he
        omega
      intro i
      by_cases hrow : ∃ c, c < 8 ∧ e.ram (e.indexRegister + m) &&& (128 >>> c) ≠ 0 ∧
          cellIndex vx vy m c = i
      · have h1 := (hs i).1 hrow
        obtain ⟨c, hc, hbc, he⟩ := hrow
        have h2 : res.1 i = s i := by
          rw [← he]; exact (ihs _).2 (hfresh c)
        constructor
        · intro _; rw [h1, h2]
        · intro h; exact absurd ⟨m, by omega, c, hc, hbc, he⟩ h
      · have h1 := (hs i).2 hrow
        have hiff : (∃ r, r < m + 1 ∧ ∃ c, c < 8 ∧
              e.ram (e.indexRegister + r) &&& (128 >>> c) ≠ 0 ∧ cellIndex vx vy r c = i) ↔
            (∃ r, r < m ∧ ∃ c, c < 8 ∧
              e.ram (e.indexRegister + r) &&& (128 >>> c) ≠ 0 ∧ cellIndex vx vy r c = i) := by
          constructor
          · rintro ⟨r, hr, c, hc, hbc, he⟩
            have : r ≠ m := by rintro rfl; exact hrow ⟨c, hc, hbc, he⟩
            exact ⟨r, by omega, c, hc, hbc, he⟩
          · rintro ⟨r, hr, rest⟩; exact ⟨r, by omega, rest⟩
        rw [hiff, h1]
        exact ihs i
    · have hfresh : ∀ c, res.1 (cellIndex vx vy m c) = s (cellIndex vx vy m c) := by
        intro c
        refine (ihs _).2 ?_
        rintro ⟨r, hr, d, -, -, he⟩
        have := cellIndex_row_inj (by omega) (by omega) he
        omega
      rw [hf, ihf]
      constructor
      · rintro ((h | ⟨r, hr, rest⟩) | ⟨c, hc, hbc, hsc⟩)
        · exact Or.inl h
        · exact Or.inr ⟨r, by omega, rest⟩
        · exact Or.inr ⟨m, by omega, c, hc, hbc, by rw [← hfresh c]; exact hsc⟩
      · rintro (h | ⟨r, hr, c, hc, hbc, hsc⟩)
        · exact Or.inl (Or.inl h)
        · by_cases hrm : r = m
          · subst hrm; exact Or.inr ⟨c, hc, hbc, by rw [hfresh c]; exact hsc⟩
          · exact Or.inl (Or.inr ⟨r, by omega, c, hc, hbc, hsc⟩)

/-- The mask test of the inner loop reads bit `7 - xline` of the sprite byte. -/
theorem spriteBit_iff (p c : Nat) (hc : c < 8) :
    p &&& (128 >>> c) ≠ 0 ↔ p.testBit (7 - c) = true := by
  have hpow : 128 >>> c = 2 ^ (7 - c) := by
    interval_cases c <;> rfl
  rw [hpow, Nat.and_two_pow]
  cases p.testBit (7 - c) <;> simp

theorem cellIndex_eq_iff (vx vy r c px py : Nat) (hpx : px < 64) :
    cellIndex vx vy r c = px + 64 * py ↔ (vx + c) % 64 = px ∧ (vy + r) % 32 = py := by
  unfold cellIndex; omega

/-- Dispatch of a word `DXYN`. -/
theorem Execute_DXYN (ext : Extern) (e : Emulator) (X Y N : Nat) (hX : X < 16) (hY : Y < 16)
    (hN : N < 16) :
    Execute ext e (0xD000 + 0x100 * X + 0x10 * Y + N) = executeD e X Y N := by
  have h1 : ((0xD000 + 0x100 * X + 0x10 * Y + N) &&& 0xF000) >>> 12 = 0xD := by
    rw [decode_b1]; omega
  have h2 : ((0xD000 + 0x100 * X + 0x10 * Y + N) &&& 0x0F00) >>> 8 = X := by
    rw [decode_b2]; omega
  have h3 : ((0xD000 + 0x100 * X + 0x10 * Y + N) &&& 0x00F0) >>> 4 = Y := by
    rw [decode_b3]; omega
  have h4 : (0xD000 + 0x100 * X + 0x10 * Y + N) &&& 0x000F = N := by
    rw [decode_b4]; omega
  simp only [Execute, h1, h2, h3, h4]
  simp

/-- Effect of `executeD` on the framebuffer and on the local `flipped`, in
terms of the mask test of the code. -/
theorem executeD_effect (e : Emulator) (X Y N : Nat) (hN : N ≤ 32)
    (hI : e.indexRegister + N ≤ 4096) :
    ∃ res : (Nat → Bool) × Bool,
      executeD e X Y N = some ({ e with
        screen := res.1
        valueRegisters := if res.2 then setAt e.valueRegisters 0xF 1
                          else setAt e.valueRegisters 0xF 0 }, none) ∧
      (∀ i, ((∃ r, r < N ∧ ∃ c, c < 8 ∧ e.ram (e.indexRegister + r) &&& (128 >>> c) ≠ 0 ∧
                cellIndex (e.valueRegisters X) (e.valueRegisters Y) r c = i) →
                  res.1 i = !e.screen i) ∧
            ((¬ ∃ r, r < N ∧ ∃ c, c < 8 ∧ e.ram (e.indexRegister + r) &&& (128 >>> c) ≠ 0 ∧
                cellIndex (e.valueRegisters X) (e.valueRegisters Y) r c = i) →
                  res.1 i = e.screen i)) ∧
      (res.2 = true ↔ ∃ r, r < N ∧ ∃ c, c < 8 ∧
          e.ram (e.indexRegister + r) &&& (128 >>> c) ≠ 0 ∧
          e.screen (cellIndex (e.valueRegisters X) (e.valueRegisters Y) r c) = true) := by
  obtain ⟨res, hres, hs, hf⟩ :=
    drawRow_fold e (e.valueRegisters X) (e.valueRegisters Y) e.screen false N hN hI
  refine ⟨res, ?_, hs, ?_⟩
  · simp only [executeD, hres, Option.map_some']
  · rw [hf]; simp

/-- Claim C6: after `Execute(0xDXYN)` with `I + N <= 4096`, every framebuffer
cell `(px, py)` holds its old value XOR `b`, where `b` is true exactly when
some sprite row `r < N` and column `c < 8` has bit `7 - c` of `ram[I + r]` set
and lands on the cell after wrapping, `(VX + c) mod 64 = px` and
`(VY + r) mod 32 = py`. -/
theorem draw_xor_wraps (ext : Extern) (e : Emulator) (X Y N : Nat) (hX : X < 16) (hY : Y < 16)
    (hN : N < 16) (hI : e.indexRegister + N ≤ 4096) :
    ∃ e', Execute ext e (0xD000 + 0x100 * X + 0x10 * Y + N) = some (e', none) ∧
      ∀ px py, px < 64 → py < 32 → ∃ b : Bool,
        e'.screen (px + 64 * py) = Bool.xor (e.screen (px + 64 * py)) b ∧
        (b = true ↔ ∃ r, r < N ∧ ∃ c, c < 8 ∧
          (e.ram (e.indexRegister + r)).testBit (7 - c) = true ∧
          (e.valueRegisters X + c) % 64 = px ∧ (e.valueRegisters Y + r) % 32 = py) := by
  obtain ⟨res, hres, hs, -⟩ := executeD_effect e X Y N (by omega) hI
  refine ⟨_, (Execute_DXYN ext e X Y N hX hY hN).trans hres, ?_⟩
  intro px py hpx _
  have hiff : (∃ r, r < N ∧ ∃ c, c < 8 ∧ e.ram (e.indexRegister + r) &&& (128 >>> c) ≠ 0 ∧
        cellIndex (e.valueRegisters X) (e.valueRegisters Y) r c = px + 64 * py) ↔
      (∃ r, r < N ∧ ∃ c, c < 8 ∧ (e.ram (e.indexRegister + r)).testBit (7 - c) = true ∧
        (e.valueRegisters X + c) % 64 = px ∧ (e.valueRegisters Y + r) % 32 = py) := by
    constructor
    · rintro ⟨r, hr, c, hc, hb, hcell⟩
      exact ⟨r, hr, c, hc, (spriteBit_iff _ c hc).1 hb,
        (cellIndex_eq_iff _ _ r c px py hpx).1 hcell⟩
    · rintro ⟨r, hr, c, hc, hb, hcell⟩
      exact ⟨r, hr, c, hc, (spriteBit_iff _ c hc).2 hb,
        (cellIndex_eq_iff _ _ r c px py hpx).2 hcell⟩
  by_cases hhit : ∃ r, r < N ∧ ∃ c, c < 8 ∧ e.ram (e.indexRegister + r) &&& (128 >>> c) ≠ 0 ∧
      cellIndex (e.valueRegisters X) (e.valueRegisters Y) r c = px + 64 * py
  · refine ⟨true, ?_, ?_⟩
    · show res.1 (px + 64 * py) = _
      rw [(hs _).1 hhit]; simp
    · exact ⟨fun _ => hiff.1 hhit, fun _ => rfl⟩
  · refine ⟨false, ?_, ?_⟩
    · show res.1 (px + 64 * py) = _
      rw [(hs _).2 hhit]; simp
    · exact ⟨fun h => Bool.noConfusion h, fun h => absurd (hiff.2 h) hhit⟩

/-- Instance of `draw_xor_wraps` at `VX = 60`, `VY = 30` with a solid 8x4
sprite (word `0xD014`), together with the cells this draw sets: columns
`60..63` and `0..3` of rows `30`, `31`, `0`, `1`; column `4`, column `59` and
row `2` stay clear. -/
theorem draw_xor_wraps_witness :
    (0 < 16 ∧ 1 < 16 ∧ 4 < 16 ∧ spriteState.indexRegister + 4 ≤ 4096) ∧
    (∃ e', Execute sampleExtern spriteState (0xD000 + 0x100 * 0 + 0x10 * 1 + 4) = some (e', none) ∧
      ∀ px py, px < 64 → py < 32 → ∃ b : Bool,
        e'.screen (px + 64 * py) = Bool.xor (spriteState.screen (px + 64 * py)) b ∧
        (b = true ↔ ∃ r, r < 4 ∧ ∃ c, c < 8 ∧
          (spriteState.ram (spriteState.indexRegister + r)).testBit (7 - c) = true ∧
          (spriteState.valueRegisters 0 + c) % 64 = px ∧
          (spriteState.valueRegisters 1 + r) % 32 = py)) ∧
    (∃ e', Execute sampleExtern spriteState 0xD014 = some (e', none) ∧
      e'.screen (60 + 64 * 30) = true ∧ e'.screen (63 + 64 * 31) = true ∧
      e'.screen (0 + 64 * 0) = true ∧ e'.screen (3 + 64 * 1) = true ∧
      e'.screen (4 + 64 * 0) = false ∧ e'.screen (59 + 64 * 30) = false ∧
      e'.screen (0 + 64 * 2) = false) :=
  ⟨⟨by decide, by decide, by decide, by decide⟩,
    draw_xor_wraps sampleExtern spriteState 0 1 4 (by decide) (by decide) (by decide) (by decide),
    ⟨_, rfl, rfl, rfl, rfl, rfl, rfl, rfl, rfl⟩⟩

/-- Claim C7: after `Execute(0xDXYN)` with `I + N <= 4096`, `VF = 1` when some
set sprite bit (row `r < N`, column `c < 8`, bit `7 - c` of `ram[I + r]`)
landed on a framebuffer cell that was true before the draw, and `VF = 0`
otherwise (in particular when `N = 0` or all sprite bytes are zero). -/
theorem draw_collision_flag (ext : Extern) (e : Emulator) (X Y N : Nat) (hX : X < 16)
    (hY : Y < 16) (hN : N < 16) (hI : e.indexRegister + N ≤ 4096) :
    ∃ e', Execute ext e (0xD000 + 0x100 * X + 0x10 * Y + N) = some (e', none) ∧
      ((∃ r, r < N ∧ ∃ c, c < 8 ∧ (e.ram (e.indexRegister + r)).testBit (7 - c) = true ∧
          e.screen ((e.valueRegisters X + c) % 64 + 64 * ((e.valueRegisters Y + r) % 32)) = true) →
        e'.valueRegisters 0xF = 1) ∧
      ((¬ ∃ r, r < N ∧ ∃ c, c < 8 ∧ (e.ram (e.indexRegister + r)).testBit (7 - c) = true ∧
          e.screen ((e.valueRegisters X + c) % 64 + 64 * ((e.valueRegisters Y + r) % 32)) = true) →
        e'.valueRegisters 0xF = 0) := by
  obtain ⟨res, hres, -, hf⟩ := executeD_effect e X Y N (by omega) hI
  refine ⟨_, (Execute_DXYN ext e X Y N hX hY hN).trans hres, ?_⟩
  have hiff : (∃ r, r < N ∧ ∃ c, c < 8 ∧ e.ram (e.indexRegister + r) &&& (128 >>> c) ≠ 0 ∧
        e.screen (cellIndex (e.valueRegisters X) (e.valueRegisters Y) r c) = true) ↔
      (∃ r, r < N ∧ ∃ c, c < 8 ∧ (e.ram (e.indexRegister + r)).testBit (7 - c) = true ∧
        e.screen ((e.valueRegisters X + c) % 64 + 64 * ((e.valueRegisters Y + r) % 32)) = true) := by
    constructor
    · rintro ⟨r, hr, c, hc, hb, hcell⟩
      exact ⟨r, hr, c, hc, (spriteBit_iff _ c hc).1 hb, hcell⟩
    · rintro ⟨r, hr, c, hc, hb, hcell⟩
      exact ⟨r, hr, c, hc, (spriteBit_iff _ c hc).2 hb, hcell⟩
  rw [← hiff, ← hf]
  constructor
  · intro h
    show (if res.2 = true then setAt e.valueRegisters 0xF 1 else setAt e.valueRegisters 0xF 0)
      0xF = 1
    rw [if_pos h]; rfl
  · intro h
    show (if res.2 = true then setAt e.valueRegisters 0xF 1 else setAt e.valueRegisters 0xF 0)
      0xF = 0
    rw [if_neg h]; rfl

/-- Instance of `draw_collision_flag` at `VX = 60`, `VY = 30` with a solid 8x4
sprite on an empty framebuffer (word `0xD014`), where the flag is `0`, together
with the same draw on a framebuffer whose cell `(60, 30)` is lit, where the
flag is `1` and the cell is cleared. -/
theorem draw_collision_flag_witness :
    (0 < 16 ∧ 1 < 16 ∧ 4 < 16 ∧ spriteState.indexRegister + 4 ≤ 4096) ∧
    (∃ e', Execute sampleExtern spriteState (0xD000 + 0x100 * 0 + 0x10 * 1 + 4) = some (e', none) ∧
      ((∃ r, r < 4 ∧ ∃ c, c < 8 ∧
          (spriteState.ram (spriteState.indexRegister + r)).testBit (7 - c) = true ∧
          spriteState.screen ((spriteState.valueRegisters 0 + c) % 64 +
            64 * ((spriteState.valueRegisters 1 + r) % 32)) = true) →
        e'.valueRegisters 0xF = 1) ∧
      ((¬ ∃ r, r < 4 ∧ ∃ c, c < 8 ∧
          (spriteState.ram (spriteState.indexRegister + r)).testBit (7 - c) = true ∧
          spriteState.screen ((spriteState.valueRegisters 0 + c) % 64 +
            64 * ((spriteState.valueRegisters 1 + r) % 32)) = true) →
        e'.valueRegisters 0xF = 0)) ∧
    (∃ e', Execute sampleExtern spriteState 0xD014 = some (e', none) ∧
      e'.valueRegisters 0xF = 0) ∧
    (∃ e', Execute sampleExtern litSpriteState 0xD014 = some (e', none) ∧
      e'.valueRegisters 0xF = 1 ∧ e'.screen (60 + 64 * 30) = false) :=
  ⟨⟨by decide, by decide, by decide, by decide⟩,
    draw_collision_flag sampleExtern spriteState 0 1 4 (by decide) (by decide) (by decide)
      (by decide),
    ⟨_, rfl, rfl⟩, ⟨_, rfl, rfl, rfl⟩⟩

/-- A second `DXYN` executed in any state `d` whose framebuffer is the result
of a first draw from `e`, with the same `VX`, `VY`, `I` and sprite bytes,
gives back the framebuffer of `e`. -/
theorem executeD_twice (e d : Emulator) (X Y N : Nat) (hN : N ≤ 32)
    (hI : e.indexRegister + N ≤ 4096) (res : (Nat → Bool) × Bool)
    (hs : ∀ i, ((∃ r, r < N ∧ ∃ c, c < 8 ∧ e.ram (e.indexRegister + r) &&& (128 >>> c) ≠ 0 ∧
                cellIndex (e.valueRegisters X) (e.valueRegisters Y) r c = i) →
                  res.1 i = !e.screen i) ∧
            ((¬ ∃ r, r < N ∧ ∃ c, c < 8 ∧ e.ram (e.indexRegister + r) &&& (128 >>> c) ≠ 0 ∧
                cellIndex (e.valueRegisters X) (e.valueRegisters Y) r c = i) →
                  res.1 i = e.screen i))
    (hscreen : d.screen = res.1) (hindex : d.indexRegister = e.indexRegister)
    (hram : ∀ r, r < N → d.ram (e.indexRegister + r) = e.ram (e.indexRegister + r))
    (hvx : d.valueRegisters X = e.valueRegisters X)
    (hvy : d.valueRegisters Y = e.valueRegisters Y) :
    ∃ e2, executeD d X Y N = some (e2, none) ∧ ∀ i, e2.screen i = e.screen i := by
  obtain ⟨res2, hres2, hs2, -⟩ := executeD_effect d X Y N hN (by rw [hindex]; exact hI)
  refine ⟨_, hres2, ?_⟩
  intro i
  show res2.1 i = e.screen i
  have hiff : (∃ r, r < N ∧ ∃ c, c < 8 ∧ d.ram (d.indexRegister + r) &&& (128 >>> c) ≠ 0 ∧
        cellIndex (d.valueRegisters X) (d.valueRegisters Y) r c = i) ↔
      (∃ r, r < N ∧ ∃ c, c < 8 ∧ e.ram (e.indexRegister + r) &&& (128 >>> c) ≠ 0 ∧
        cellIndex (e.valueRegisters X) (e.valueRegisters Y) r c = i) := by
    rw [hindex, hvx, hvy]
    constructor
    · rintro ⟨r, hr, c, hc, hb, hcell⟩
      exact ⟨r, hr, c, hc, by rw [← hram r hr]; exact hb, hcell⟩
    · rintro ⟨r, hr, c, hc, hb, hcell⟩
      exact ⟨r, hr, c, hc, by rw [hram r hr]; exact hb, hcell⟩
  by_cases hhit : ∃ r, r < N ∧ ∃ c, c < 8 ∧ e.ram (e.indexRegister + r) &&& (128 >>> c) ≠ 0 ∧
      cellIndex (e.valueRegisters X) (e.valueRegisters Y) r c = i
  · rw [(hs2 i).1 (hiff.2 hhit), hscreen, (hs i).1 hhit, Bool.not_not]
  · rw [(hs2 i).2 (fun h => hhit (hiff.1 h)), hscreen, (hs i).2 hhit]

/-- Claim C8: for `I + N <= 4096`, `Execute(0xDXYN)` followed by a second
`Execute(0xDXYN)` with the same values in `VX` and `VY`, the same `I` and the
same sprite bytes leaves every framebuffer cell equal to its value before the
first draw.  The second draw may start from any state `d` that carries the
framebuffer left by the first one; when neither `X` nor `Y` is `0xF` the state
left by the first draw is itself such a state. -/
theorem draw_twice_restores (ext : Extern) (e : Emulator) (X Y N : Nat) (hX : X < 16)
    (hY : Y < 16) (hN : N < 16) (hI : e.indexRegister + N ≤ 4096) :
    ∃ e1, Execute ext e (0xD000 + 0x100 * X + 0x10 * Y + N) = some (e1, none) ∧
      (∀ (ext2 : Extern) (d : Emulator), d.screen = e1.screen →
        d.indexRegister = e.indexRegister →
        (∀ r, r < N → d.ram (e.indexRegister + r) = e.ram (e.indexRegister + r)) →
        d.valueRegisters X = e.valueRegisters X → d.valueRegisters Y = e.valueRegisters Y →
        ∃ e2, Execute ext2 d (0xD000 + 0x100 * X + 0x10 * Y + N) = some (e2, none) ∧
          ∀ i, i < SCREEN_WIDTH * SCREEN_HEIGHT → e2.screen i = e.screen i) ∧
      (X ≠ 0xF → Y ≠ 0xF →
        ∃ e2, Execute ext e1 (0xD000 + 0x100 * X + 0x10 * Y + N) = some (e2, none) ∧
          ∀ i, i < SCREEN_WIDTH * SCREEN_HEIGHT → e2.screen i = e.screen i) := by
  obtain ⟨res, hres, hs, -⟩ := executeD_effect e X Y N (by omega) hI
  have hgen : ∀ (ext2 : Extern) (d : Emulator), d.screen = res.1 →
      d.indexRegister = e.indexRegister →
      (∀ r, r < N → d.ram (e.indexRegister + r) = e.ram (e.indexRegister + r)) →
      d.valueRegisters X = e.valueRegisters X → d.valueRegisters Y = e.valueRegisters Y →
      ∃ e2, Execute ext2 d (0xD000 + 0x100 * X + 0x10 * Y + N) = some (e2, none) ∧
        ∀ i, i < SCREEN_WIDTH * SCREEN_HEIGHT → e2.screen i = e.screen i := by
    intro ext2 d hscreen hindex hram hvx hvy
    obtain ⟨e2, he2, hback⟩ :=
      executeD_twice e d X Y N (by omega) hI res hs hscreen hindex hram hvx hvy
    exact ⟨e2, (Execute_DXYN ext2 d X Y N hX hY hN).trans he2, fun i _ => hback i⟩
  refine ⟨_, (Execute_DXYN ext e X Y N hX hY hN).trans hres, hgen, ?_⟩
  intro hXF hYF
  have hreg : ∀ j, j ≠ 0xF →
      (if res.2 = true then setAt e.valueRegisters 0xF 1 else setAt e.valueRegisters 0xF 0) j =
        e.valueRegisters j := by
    intro j hj
    split <;> simp [setAt_apply, hj]
  exact hgen ext _ rfl rfl (fun _ _ => rfl) (hreg X hXF) (hreg Y hYF)

/-- Instance of `draw_twice_restores` at `VX = 60`, `VY = 30` with a solid
8x4 sprite (word `0xD014`). -/
theorem draw_twice_restores_witness :
    (0 < 16 ∧ 1 < 16 ∧ 4 < 16 ∧ spriteState.indexRegister + 4 ≤ 4096) ∧
    ∃ e1, Execute sampleExtern spriteState (0xD000 + 0x100 * 0 + 0x10 * 1 + 4) = some (e1, none) ∧
      (∀ (ext2 : Extern) (d : Emulator), d.screen = e1.screen →
        d.indexRegister = spriteState.indexRegister →
        (∀ r, r < 4 → d.ram (spriteState.indexRegister + r) =
          spriteState.ram (spriteState.indexRegister + r)) →
        d.valueRegisters 0 = spriteState.valueRegisters 0 →
        d.valueRegisters 1 = spriteState.valueRegisters 1 →
        ∃ e2, Execute ext2 d (0xD000 + 0x100 * 0 + 0x10 * 1 + 4) = some (e2, none) ∧
          ∀ i, i < SCREEN_WIDTH * SCREEN_HEIGHT → e2.screen i = spriteState.screen i) ∧
      (0 ≠ 0xF → 1 ≠ 0xF →
        ∃ e2, Execute sampleExtern e1 (0xD000 + 0x100 * 0 + 0x10 * 1 + 4) = some (e2, none) ∧
          ∀ i, i < SCREEN_WIDTH * SCREEN_HEIGHT → e2.screen i = spriteState.screen i) :=
  ⟨⟨by decide, by decide, by decide, by decide⟩,
    draw_twice_restores sampleExtern spriteState 0 1 4 (by decide) (by decide) (by decide)
      (by decide)⟩


/-! ## Timers, fetch and load -/

theorem WF_withRam {e : Emulator} (h : e.WF) {ram : Nat → Nat} (hr : ∀ a, ram a < 256) :
    Emulator.WF { e with ram := ram } :=
  ⟨h.pc_lt, hr, h.reg_lt, h.index_lt, h.sp_lt, h.stack_lt, h.delay_lt, h.sound_lt⟩

theorem timerState_WF : timerState.WF :=
  ⟨zeroEmulator_WF.pc_lt, zeroEmulator_WF.ram_lt, zeroEmulator_WF.reg_lt,
    zeroEmulator_WF.index_lt, zeroEmulator_WF.sp_lt, zeroEmulator_WF.stack_lt,
    by decide, by decide⟩

theorem programState_WF : programState.WF :=
  WF_withRam zeroEmulator_WF
    (setAt_lt (setAt_lt zeroEmulator_WF.ram_lt 0x200 (by decide)) 0x201 (by decide))

/-- One call of `TickTimers` on timers that are bytes. -/
theorem TickTimers_state (e : Emulator) (hd : e.delayTimer < 256) (hs : e.soundTimer < 256) :
    (TickTimers e).1 =
      { e with
        delayTimer := if e.delayTimer = 0 then 0 else e.delayTimer - 1
        soundTimer := if e.soundTimer = 0 then 0 else e.soundTimer - 1 } := by
  unfold TickTimers
  by_cases h1 : e.delayTimer = 0 <;> by_cases h2 : e.soundTimer = 0
  · simp [h1, h2]
    cases e; simp_all
  · have h3 : (e.soundTimer + 255) % 256 = e.soundTimer - 1 := by omega
    have h4 : e.soundTimer > 0 := by omega
    simp [h1, h2, h3, h4]
  · have h3 : (e.delayTimer + 255) % 256 = e.delayTimer - 1 := by omega
    have h4 : e.delayTimer > 0 := by omega
    simp [h1, h2, h3, h4]
  · have h3 : (e.delayTimer + 255) % 256 = e.delayTimer - 1 := by omega
    have h4 : e.delayTimer > 0 := by omega
    have h5 : (e.soundTimer + 255) % 256 = e.soundTimer - 1 := by omega
    have h6 : e.soundTimer > 0 := by omega
    simp [h1, h2, h3, h4, h5, h6]

theorem tickTimersN_bytes (e : Emulator) (hd : e.delayTimer < 256) (hs : e.soundTimer < 256) :
    ∀ n, (tickTimersN n e).delayTimer < 256 ∧ (tickTimersN n e).soundTimer < 256 := by
  intro n
  induction n with
  | zero => exact ⟨hd, hs⟩
  | succ n ih =>
    show (TickTimers (tickTimersN n e)).1.delayTimer < 256 ∧
      (TickTimers (tickTimersN n e)).1.soundTimer < 256
    rw [TickTimers_state _ ih.1 ih.2]
    constructor
    · show (if (tickTimersN n e).delayTimer = 0 then 0 else (tickTimersN n e).delayTimer - 1) < 256
      split <;> omega
    · show (if (tickTimersN n e).soundTimer = 0 then 0 else (tickTimersN n e).soundTimer - 1) < 256
      split <;> omega

/-- Claim C13: on a well-formed state `TickTimers` sets each timer to its old
value minus one when that value is nonzero and leaves it `0` otherwise (no
wrap to 255), and changes nothing else; over repeated calls each timer never
increases and stays `0` once it is `0`. -/
theorem timers_floor_at_zero (e : Emulator) (hwf : e.WF) :
    (TickTimers e).1 =
      { e with
        delayTimer := if e.delayTimer = 0 then 0 else e.delayTimer - 1
        soundTimer := if e.soundTimer = 0 then 0 else e.soundTimer - 1 } ∧
    ∀ n,
      (tickTimersN (n + 1) e).delayTimer ≤ (tickTimersN n e).delayTimer ∧
      (tickTimersN (n + 1) e).soundTimer ≤ (tickTimersN n e).soundTimer ∧
      ((tickTimersN n e).delayTimer = 0 → (tickTimersN (n + 1) e).delayTimer = 0) ∧
      ((tickTimersN n e).soundTimer = 0 → (tickTimersN (n + 1) e).soundTimer = 0) := by
  refine ⟨TickTimers_state e hwf.delay_lt hwf.sound_lt, fun n => ?_⟩
  obtain ⟨hd, hs⟩ := tickTimersN_bytes e hwf.delay_lt hwf.sound_lt n
  have hstep : tickTimersN (n + 1) e = (TickTimers (tickTimersN n e)).1 := rfl
  rw [hstep, TickTimers_state _ hd hs]
  refine ⟨?_, ?_, ?_, ?_⟩
  · show (if (tickTimersN n e).delayTimer = 0 then 0 else (tickTimersN n e).delayTimer - 1) ≤ _
    split <;> omega
  · show (if (tickTimersN n e).soundTimer = 0 then 0 else (tickTimersN n e).soundTimer - 1) ≤ _
    split <;> omega
  · intro h
    show (if (tickTimersN n e).delayTimer = 0 then 0 else (tickTimersN n e).delayTimer - 1) = 0
    rw [if_pos h]
  · intro h
    show (if (tickTimersN n e).soundTimer = 0 then 0 else (tickTimersN n e).soundTimer - 1) = 0
    rw [if_pos h]

theorem word_of_bytes (hi lo : Nat) (hhi : hi < 256) (hlo : lo < 256) :
    ((hi <<< 8) % 65536) ||| lo = hi * 256 + lo := by
  have h1 : hi <<< 8 = 2 ^ 8 * hi := by rw [Nat.shiftLeft_eq]; ring
  have h2 : (2 ^ 8 * hi) % 65536 = 2 ^ 8 * hi := by omega
  rw [h1, h2, ← Nat.mul_add_lt_is_or (by omega) hi]
  omega

theorem Fetch_word (e : Emulator) (hpc : e.programCount + 1 < 4096)
    (h0 : e.ram e.programCount < 256) (h1 : e.ram (e.programCount + 1) < 256) :
    Fetch e = some ({ e with programCount := e.programCount + 2 },
      e.ram e.programCount * 256 + e.ram (e.programCount + 1)) := by
  have ha : e.programCount < 4096 := by omega
  have hb : (e.programCount + 1) % 65536 = e.programCount + 1 := by omega
  have hc : (e.programCount + 2) % 65536 = e.programCount + 2 := by omega
  simp only [Fetch, RAM_SIZE, hb, hc]
  rw [if_pos (by omega), if_pos (by omega), word_of_bytes _ _ h0 h1]

theorem copyInto_inside (dst : Nat → Nat) (lo : Nat) (src : List Nat) (i : Nat)
    (h : i < src.length) : copyInto dst lo (lo + src.length) src (lo + i) = src[i] := by
  unfold copyInto
  have h1 : lo + i - lo = i := by omega
  rw [if_pos ⟨by omega, by omega, by omega⟩, h1]
  simp [List.getD_eq_getElem?_getD, h]

theorem copyInto_outside (dst : Nat → Nat) (lo hi : Nat) (src : List Nat) (a : Nat)
    (h : a < lo ∨ hi ≤ a) : copyInto dst lo hi src a = dst a := by
  unfold copyInto
  rw [if_neg (by omega)]

theorem Load_image (e : Emulator) (data : List Nat) (hlen : data.length ≤ 4096 - 0x200) :
    ∃ e', Load e data = some e' ∧
      (∀ i (h : i < data.length), e'.ram (0x200 + i) = data[i]) ∧
      (∀ a, a < 0x200 ∨ 0x200 + data.length ≤ a → e'.ram a = e.ram a) ∧
      e' = { e with ram := e'.ram } := by
  have hfit : START_ADDRESS + data.length ≤ RAM_SIZE := by simp; omega
  refine ⟨_, by rw [Load, if_pos hfit], ?_, ?_, rfl⟩
  · intro i h
    exact copyInto_inside e.ram 0x200 data i h
  · intro a ha
    exact copyInto_outside e.ram 0x200 _ data a ha

/-- Instance of `timers_floor_at_zero` at `delayTimer = 2`, `soundTimer = 1`. -/
theorem timers_floor_at_zero_witness :
    timerState.WF ∧
    ((TickTimers timerState).1 =
      { timerState with
        delayTimer := if timerState.delayTimer = 0 then 0 else timerState.delayTimer - 1
        soundTimer := if timerState.soundTimer = 0 then 0 else timerState.soundTimer - 1 } ∧
    ∀ n,
      (tickTimersN (n + 1) timerState).delayTimer ≤ (tickTimersN n timerState).delayTimer ∧
      (tickTimersN (n + 1) timerState).soundTimer ≤ (tickTimersN n timerState).soundTimer ∧
      ((tickTimersN n timerState).delayTimer = 0 →
        (tickTimersN (n + 1) timerState).delayTimer = 0) ∧
      ((tickTimersN n timerState).soundTimer = 0 →
        (tickTimersN (n + 1) timerState).soundTimer = 0)) :=
  ⟨timerState_WF, timers_floor_at_zero timerState timerState_WF⟩

/-- Claim C17: on a well-formed state with `pc + 1 < 4096`, `Fetch` returns the
word `ram[pc] * 256 + ram[pc + 1]` (high byte at the lower address), sets `pc`
to the old `pc + 2` and changes nothing else. -/
theorem Fetch_big_endian (e : Emulator) (hwf : e.WF) (hpc : e.programCount + 1 < 4096) :
    Fetch e = some ({ e with programCount := e.programCount + 2 },
      e.ram e.programCount * 256 + e.ram (e.programCount + 1)) :=
  Fetch_word e hpc (hwf.ram_lt _) (hwf.ram_lt _)

/-- Instance of `Fetch_big_endian` at the program bytes `0x60 0x05`. -/
theorem Fetch_big_endian_witness :
    programState.WF ∧ programState.programCount + 1 < 4096 ∧
    Fetch programState = some ({ programState with programCount := programState.programCount + 2 },
      programState.ram programState.programCount * 256 +
        programState.ram (programState.programCount + 1)) :=
  ⟨programState_WF, by decide, Fetch_big_endian programState programState_WF (by decide)⟩

/-- Claim C18: for `len(data) <= 4096 - 0x200`, `Load(data)` does not panic,
leaves `ram[0x200 + i] = data[i]` for every `i < len(data)`, leaves every
memory byte below `0x200` or at or above `0x200 + len(data)` unchanged, and
changes no other field. -/
theorem Load_copies (e : Emulator) (data : List Nat) (hlen : data.length ≤ 4096 - 0x200) :
    ∃ e', Load e data = some e' ∧
      (∀ i (h : i < data.length), e'.ram (0x200 + i) = data[i]) ∧
      (∀ a, a < 0x200 ∨ 0x200 + data.length ≤ a → e'.ram a = e.ram a) ∧
      e' = { e with ram := e'.ram } :=
  Load_image e data hlen

/-- Instance of `Load_copies` at the program `60 05 70 03`. -/
theorem Load_copies_witness :
    [0x60, 0x05, 0x70, 0x03].length ≤ 4096 - 0x200 ∧
    ∃ e', Load zeroEmulator [0x60, 0x05, 0x70, 0x03] = some e' ∧
      (∀ i (h : i < [0x60, 0x05, 0x70, 0x03].length),
        e'.ram (0x200 + i) = [0x60, 0x05, 0x70, 0x03][i]) ∧
      (∀ a, a < 0x200 ∨ 0x200 + [0x60, 0x05, 0x70, 0x03].length ≤ a →
        e'.ram a = zeroEmulator.ram a) ∧
      e' = { zeroEmulator with ram := e'.ram } :=
  ⟨by decide, Load_copies zeroEmulator [0x60, 0x05, 0x70, 0x03] (by decide)⟩

/-! ## `8XY6`, `8XYE`: shifts -/

/-- Claim C15: for all register indexes `X`, `Y`, after `Execute(0x8XY6)`
`VF = (old VX) AND 1` and after `Execute(0x8XYE)` `VF = ((old VX) >> 7) AND 1`,
the bit of the old `VX` that is shifted out, whatever `VY` holds; for
`X != 0xF` the register `VX` becomes `old VX >> 1`, respectively
`(old VX << 1) mod 256`. -/
theorem shift_flags (ext : Extern) (e : Emulator) (X Y : Nat) (hX : X < 16) (hY : Y < 16) :
    (∃ e1, Execute ext e (0x8006 + 0x100 * X + 0x10 * Y) = some (e1, none) ∧
      e1.valueRegisters 0xF = e.valueRegisters X &&& 1 ∧
      (X ≠ 0xF → e1.valueRegisters X = e.valueRegisters X >>> 1)) ∧
    (∃ e2, Execute ext e (0x800E + 0x100 * X + 0x10 * Y) = some (e2, none) ∧
      e2.valueRegisters 0xF = (e.valueRegisters X >>> 7) &&& 1 ∧
      (X ≠ 0xF → e2.valueRegisters X = (e.valueRegisters X <<< 1) % 256)) := by
  have h6 := Execute_8XYN ext e X Y 6 hX hY (by omega)
  have hE := Execute_8XYN ext e X Y 0xE hX hY (by omega)
  have hop6 : 0x8000 + 0x100 * X + 0x10 * Y + 6 = 0x8006 + 0x100 * X + 0x10 * Y := by omega
  have hopE : 0x8000 + 0x100 * X + 0x10 * Y + 0xE = 0x800E + 0x100 * X + 0x10 * Y := by omega
  rw [hop6] at h6
  rw [hopE] at hE
  constructor
  · rw [h6]
    simp only [execute8, show (6 : Nat) ≠ 0 by decide, show (6 : Nat) ≠ 1 by decide,
      show (6 : Nat) ≠ 2 by decide, show (6 : Nat) ≠ 3 by decide, show (6 : Nat) ≠ 4 by decide,
      show (6 : Nat) ≠ 5 by decide, if_false, if_true]
    refine ⟨_, rfl, ?_, ?_⟩
    · simp [setAt_apply]
    · intro hne
      simp [setAt_apply, hne]
  · rw [hE]
    simp only [execute8, show (0xE : Nat) ≠ 0 by decide, show (0xE : Nat) ≠ 1 by decide,
      show (0xE : Nat) ≠ 2 by decide, show (0xE : Nat) ≠ 3 by decide,
      show (0xE : Nat) ≠ 4 by decide, show (0xE : Nat) ≠ 5 by decide,
      show (0xE : Nat) ≠ 6 by decide, show (0xE : Nat) ≠ 7 by decide, if_false, if_true]
    refine ⟨_, rfl, ?_, ?_⟩
    · simp [setAt_apply]
    · intro hne
      simp [setAt_apply, hne]

/-- Instance of `shift_flags` at `V1 = 200`, `X = 1`, `Y = 2`. -/
theorem shift_flags_witness :
    (1 < 16 ∧ 2 < 16) ∧
    ((∃ e1, Execute sampleExtern arithState (0x8006 + 0x100 * 1 + 0x10 * 2) = some (e1, none) ∧
      e1.valueRegisters 0xF = arithState.valueRegisters 1 &&& 1 ∧
      (1 ≠ 0xF → e1.valueRegisters 1 = arithState.valueRegisters 1 >>> 1)) ∧
    (∃ e2, Execute sampleExtern arithState (0x800E + 0x100 * 1 + 0x10 * 2) = some (e2, none) ∧
      e2.valueRegisters 0xF = (arithState.valueRegisters 1 >>> 7) &&& 1 ∧
      (1 ≠ 0xF → e2.valueRegisters 1 = (arithState.valueRegisters 1 <<< 1) % 256))) :=
  ⟨⟨by decide, by decide⟩, shift_flags sampleExtern arithState 1 2 (by decide) (by decide)⟩

/-! ## `2NNN`, `00EE`: call and return -/

theorem Execute_2NNN (ext : Extern) (e : Emulator) (NNN : Nat) (hN : NNN < 4096) :
    Execute ext e (0x2000 + NNN) =
      (Push e e.programCount).map fun e1 => ({ e1 with programCount := NNN }, none) := by
  have h1 : ((0x2000 + NNN) &&& 0xF000) >>> 12 = 2 := by rw [decode_b1]; omega
  have h2 : (0x2000 + NNN) &&& 0xFFF = NNN := by rw [decode_nnn]; omega
  simp only [Execute, h1, h2]
  simp

theorem Execute_00EE (ext : Extern) (e : Emulator) :
    Execute ext e 0x00EE = (Pop e).map fun p => ({ p.1 with programCount := p.2 }, none) := by
  have h1 : (0x00EE &&& 0xF000) >>> 12 = 0 := by decide
  have h3 : (0x00EE &&& 0x00F0) >>> 4 = 0xE := by decide
  have h4 : 0x00EE &&& 0x000F = 0xE := by decide
  simp only [Execute, h1, h3, h4]
  simp [execute0]

/-- Claim C16: with `stackPointer < 16`, `Execute(0x2NNN)` stores the current
`pc` at `stack[old stackPointer]`, increments `stackPointer` and sets
`pc = NNN`; a following `Execute(0x00EE)` sets `pc` and `stackPointer` back to
their values before the call and changes nothing else. -/
theorem call_then_return (ext : Extern) (e : Emulator) (NNN : Nat)
    (hsp : e.stackPointer < 16) (hN : NNN < 4096) :
    ∃ e1 e2, Execute ext e (0x2000 + NNN) = some (e1, none) ∧
      e1 = { e with
        stack := setAt e.stack e.stackPointer e.programCount
        stackPointer := e.stackPointer + 1
        programCount := NNN } ∧
      Execute ext e1 0x00EE = some (e2, none) ∧
      e2 = { e1 with programCount := e.programCount, stackPointer := e.stackPointer } := by
  have hs1 : (e.stackPointer + 1) % 65536 = e.stackPointer + 1 := by omega
  have hs2 : (e.stackPointer + 1 + 65535) % 65536 = e.stackPointer := by omega
  refine ⟨_, _, ?_, rfl, ?_, rfl⟩
  · rw [Execute_2NNN ext e NNN hN]
    simp [Push, hsp, hs1]
  · rw [Execute_00EE]
    simp [Pop, hs2, hsp, setAt_apply]

/-- Instance of `call_then_return` at the initial state and `NNN = 0x300`. -/
theorem call_then_return_witness :
    (zeroEmulator.stackPointer < 16 ∧ 0x300 < 4096) ∧
    ∃ e1 e2, Execute sampleExtern zeroEmulator (0x2000 + 0x300) = some (e1, none) ∧
      e1 = { zeroEmulator with
        stack := setAt zeroEmulator.stack zeroEmulator.stackPointer zeroEmulator.programCount
        stackPointer := zeroEmulator.stackPointer + 1
        programCount := 0x300 } ∧
      Execute sampleExtern e1 0x00EE = some (e2, none) ∧
      e2 = { e1 with
        programCount := zeroEmulator.programCount
        stackPointer := zeroEmulator.stackPointer } :=
  ⟨⟨by decide, by decide⟩,
    call_then_return sampleExtern zeroEmulator 0x300 (by decide) (by decide)⟩

/-! ## Key state -/

theorem kept_some (e x : Emulator) (r : Option String) (h : x.keys = e.keys) :
    KeysKept e (some (x, r)) := by
  intro e' r' heq; cases heq; exact h

theorem kept_panic (e : Emulator) : KeysKept e none := by
  intro e' r h; cases h

theorem kept_ite (e : Emulator) (c : Prop) [Decidable c] (a b : Outcome)
    (ha : KeysKept e a) (hb : KeysKept e b) : KeysKept e (if c then a else b) := by
  split_ifs <;> assumption

theorem kept_map (e : Emulator) {α : Type} (x : Option α) (f : α → Emulator × Option String)
    (h : ∀ a, x = some a → (f a).1.keys = e.keys) : KeysKept e (x.map f) := by
  intro e' r heq
  cases x with
  | none => cases heq
  | some a =>
    simp only [Option.map_some', Option.some.injEq] at heq
    have hfa : (f a).1 = e' := by rw [heq]
    rw [← hfa]
    exact h a rfl

theorem Pop_keys {e : Emulator} {p : Emulator × Nat} (h : Pop e = some p) :
    p.1.keys = e.keys := by
  unfold Pop at h
  dsimp only at h
  split_ifs at h
  cases h; rfl

theorem Push_keys {e e1 : Emulator} {v : Nat} (h : Push e v = some e1) : e1.keys = e.keys := by
  unfold Push at h
  split_ifs at h
  cases h; rfl

theorem execute0_kept (e : Emulator) (opcode b3 b4 : Nat) :
    KeysKept e (execute0 e opcode b3 b4) := by
  unfold execute0
  generalize unsupportedOpcode opcode = m
  apply kept_ite
  · exact kept_some _ _ _ rfl
  apply kept_ite
  · apply kept_ite
    · apply kept_map
      intro p hp
      have := Pop_keys hp
      rw [show (({ p.1 with programCount := p.2 } : Emulator), (none : Option String)).1.keys
        = p.1.keys from rfl, this]
      split <;> rfl
    · apply kept_some
      split <;> rfl
  · exact kept_some _ _ _ rfl

theorem execute8_kept (e : Emulator) (opcode b2 b3 b4 : Nat) :
    KeysKept e (execute8 e opcode b2 b3 b4) := by
  unfold execute8
  generalize unsupportedOpcode opcode = m
  repeat' first
    | exact kept_some _ _ _ rfl
    | apply kept_ite

theorem executeD_kept (e : Emulator) (b2 b3 b4 : Nat) : KeysKept e (executeD e b2 b3 b4) := by
  unfold executeD
  apply kept_map
  intro a _; rfl

theorem executeE_kept (e : Emulator) (opcode b2 b3 b4 : Nat) :
    KeysKept e (executeE e opcode b2 b3 b4) := by
  unfold executeE
  generalize unsupportedOpcode opcode = m
  repeat' first
    | exact kept_some _ _ _ rfl
    | exact kept_panic _
    | apply kept_ite

theorem executeF_kept (ext : Extern) (e : Emulator) (opcode b2 b3 b4 : Nat) :
    KeysKept e (executeF ext e opcode b2 b3 b4) := by
  unfold executeF
  generalize unsupportedOpcode opcode = m
  repeat' first
    | (apply kept_map; intro a _; rfl)
    | exact kept_some _ _ _ rfl
    | exact kept_panic _
    | apply kept_ite
    | (split <;> exact kept_some _ _ _ rfl)

theorem Execute_kept (ext : Extern) (e : Emulator) (opcode : Nat) :
    KeysKept e (Execute ext e opcode) := by
  unfold Execute
  have h0 := execute0_kept e opcode
  have h8 := execute8_kept e opcode
  have hD := executeD_kept e
  have hE := executeE_kept e opcode
  have hF := executeF_kept ext e opcode
  generalize unsupportedOpcode opcode = m at *
  repeat' first
    | (apply kept_map; intro a ha; show a.keys = e.keys; exact Push_keys ha)
    | exact kept_some _ _ _ rfl
    | apply h0
    | apply h8
    | apply hD
    | apply hE
    | apply hF
    | apply kept_ite

theorem Fetch_keys {e e' : Emulator} {w : Nat} (h : Fetch e = some (e', w)) :
    e'.keys = e.keys := by
  unfold Fetch at h
  split_ifs at h
  cases h; rfl

theorem TickTimers_keys (e : Emulator) : (TickTimers e).1.keys = e.keys := by
  unfold TickTimers
  by_cases h1 : e.delayTimer > 0 <;> by_cases h2 : e.soundTimer > 0
  all_goals simp only [h1, h2, if_true, if_false]

theorem Tick_keys {ext : Extern} {e e' : Emulator} (h : Tick ext e = some e') :
    e'.keys = e.keys := by
  unfold Tick at h
  cases hf : Fetch e with
  | none => rw [hf] at h; cases h
  | some p =>
    rw [hf] at h
    simp only [Option.some_bind] at h
    cases hx : Execute ext p.1 p.2 with
    | none => rw [hx] at h; cases h
    | some r =>
      rw [hx] at h
      cases h
      rw [Execute_kept ext p.1 p.2 r.1 r.2 hx]
      exact Fetch_keys hf

/-- Claim C19: `Execute`, `Fetch`, `Tick` (when it does not panic) and
`TickTimers` leave the sixteen key flags as they were; `Input(index, pressed)`
succeeds only for `index` in `0..15`, sets key `index` to `pressed` and changes
no other key and no other field. -/
theorem keys_changed_by_Input_only (ext : Extern) (e : Emulator) (opcode : Nat) (index : Int)
    (pressed : Bool) :
    (∀ e' r, Execute ext e opcode = some (e', r) → e'.keys = e.keys) ∧
    (∀ e' w, Fetch e = some (e', w) → e'.keys = e.keys) ∧
    (∀ e', Tick ext e = some e' → e'.keys = e.keys) ∧
    (TickTimers e).1.keys = e.keys ∧
    (∀ e', Input e index pressed = some e' →
      0 ≤ index ∧ index < 16 ∧ e'.keys index.toNat = pressed ∧
      (∀ j, j ≠ index.toNat → e'.keys j = e.keys j) ∧
      e' = { e with keys := e'.keys }) := by
  refine ⟨Execute_kept ext e opcode, fun e' w h => Fetch_keys h, fun e' h => Tick_keys h,
    TickTimers_keys e, ?_⟩
  intro e' h
  unfold Input at h
  split_ifs at h with hc
  cases h
  refine ⟨hc.1, by simpa using hc.2, ?_, ?_, rfl⟩
  · simp [setAt_apply]
  · intro j hj
    simp [setAt_apply, hj]

/-- Instance of `keys_changed_by_Input_only`: executing `6005`, ticking the
timers and reporting key `5` pressed, from the initial state. -/
theorem keys_changed_by_Input_only_witness :
    (∃ e', Execute sampleExtern zeroEmulator 0x6005 = some (e', none) ∧
      e'.keys = zeroEmulator.keys) ∧
    (TickTimers zeroEmulator).1.keys = zeroEmulator.keys ∧
    (∃ e', Input zeroEmulator 5 true = some e' ∧ e'.keys 5 = true ∧
      ∀ j, j ≠ 5 → e'.keys j = zeroEmulator.keys j) :=
  ⟨⟨_, rfl, (keys_changed_by_Input_only sampleExtern zeroEmulator 0x6005 5 true).1 _ _ rfl⟩,
    (keys_changed_by_Input_only sampleExtern zeroEmulator 0x6005 5 true).2.2.2.1,
    ⟨_, rfl,
      ((keys_changed_by_Input_only sampleExtern zeroEmulator 0x6005 5 true).2.2.2.2 _ rfl).2.2.1,
      ((keys_changed_by_Input_only sampleExtern zeroEmulator 0x6005 5 true).2.2.2.2 _
        rfl).2.2.2.1⟩⟩

/-! ## `FX0A`: waiting for a key -/



theorem find_range_none (p : Nat → Bool) (n : Nat) (h : ∀ i, i < n → p i = false) :
    (List.range n).find? p = none := by
  rw [List.find?_eq_none]
  intro x hx
  rw [List.mem_range] at hx
  simp [h x hx]

theorem find_range_first (p : Nat → Bool) (n k : Nat) (hk : k < n) (hp : p k = true)
    (hmin : ∀ i, i < k → p i = false) : (List.range n).find? p = some k := by
  induction n with
  | zero => omega
  | succ n ih =>
    rw [List.range_succ, List.find?_append]
    by_cases hkn : k < n
    · rw [ih hkn]; rfl
    · have hkeq : k = n := by omega
      subst hkeq
      rw [find_range_none p k hmin]
      simp [hp]

theorem Execute_FX0A (ext : Extern) (e : Emulator) (X : Nat) (hX : X < 16) :
    Execute ext e (0xF00A + 0x100 * X) =
      match (List.range KEY_COUNT).find? (fun i => e.keys i) with
      | some i => some ({ e with valueRegisters := setAt e.valueRegisters X (i % 256) }, none)
      | none => some ({ e with programCount := (e.programCount + 65534) % 65536 }, none) := by
  have h1 : ((0xF00A + 0x100 * X) &&& 0xF000) >>> 12 = 0xF := by rw [decode_b1]; omega
  have h2 : ((0xF00A + 0x100 * X) &&& 0x0F00) >>> 8 = X := by rw [decode_b2]; omega
  have h3 : ((0xF00A + 0x100 * X) &&& 0x00F0) >>> 4 = 0 := by rw [decode_b3]; omega
  have h4 : (0xF00A + 0x100 * X) &&& 0x000F = 0xA := by rw [decode_b4]; omega
  simp only [Execute, h1, h2, h3, h4]
  simp [executeF]

/-- Claim C12: with `pc + 1 < 4096` and the instruction `FX0A` at `pc`: when no
key is pressed `Tick` leaves the whole state unchanged, and so does any number
of repeated `Tick`s; when some key is pressed `Tick` sets `pc` to the old
`pc + 2` and `VX` to the lowest pressed key index and changes nothing else. -/
theorem waitKey_tick (ext : Extern) (e : Emulator) (X : Nat) (hX : X < 16)
    (hpc : e.programCount + 1 < 4096)
    (hhi : e.ram e.programCount = 0xF0 + X) (hlo : e.ram (e.programCount + 1) = 0x0A) :
    ((∀ i, i < 16 → e.keys i = false) →
      Tick ext e = some e ∧ ∀ n, ticks ext n e = some e) ∧
    ((∃ i, i < 16 ∧ e.keys i = true) →
      ∃ k, k < 16 ∧ e.keys k = true ∧ (∀ i, i < k → e.keys i = false) ∧
        Tick ext e = some { e with
          programCount := e.programCount + 2
          valueRegisters := setAt e.valueRegisters X k }) := by
  have hfetch := Fetch_word e hpc (by rw [hhi]; omega) (by rw [hlo]; omega)
  have hword : e.ram e.programCount * 256 + e.ram (e.programCount + 1) = 0xF00A + 0x100 * X := by
    rw [hhi, hlo]; omega
  rw [hword] at hfetch
  constructor
  · intro hnone
    have htick : Tick ext e = some e := by
      have hfind : (List.range KEY_COUNT).find? (fun i => e.keys i) = none :=
        find_range_none _ _ hnone
      have hback : (e.programCount + 2 + 65534) % 65536 = e.programCount := by omega
      simp only [Tick, hfetch, Option.some_bind, Execute_FX0A ext _ X hX]
      simp only [hfind, Option.map_some', hback]
    refine ⟨htick, fun n => ?_⟩
    induction n with
    | zero => rfl
    | succ n ih => simp only [ticks, ih, Option.some_bind, htick]
  · intro hsome
    have hex : ∃ k, k < 16 ∧ e.keys k = true := hsome
    refine ⟨Nat.find hex, (Nat.find_spec hex).1, (Nat.find_spec hex).2, ?_, ?_⟩
    · intro i hi
      have hlt : Nat.find hex < 16 := (Nat.find_spec hex).1
      have := Nat.find_min hex hi
      simp only [not_and, Bool.not_eq_true] at this
      exact this (by omega)
    · have hk : Nat.find hex < 16 := (Nat.find_spec hex).1
      have hfind : (List.range KEY_COUNT).find? (fun i => e.keys i) = some (Nat.find hex) := by
        apply find_range_first _ _ _ hk (Nat.find_spec hex).2
        intro i hi
        have := Nat.find_min hex hi
        simp only [not_and, Bool.not_eq_true] at this
        exact this (by omega)
      have hmod : Nat.find hex % 256 = Nat.find hex := by omega
      simp only [Tick, hfetch, Option.some_bind, Execute_FX0A ext _ X hX]
      simp only [hfind, Option.map_some', hmod]

/-- Instance of `waitKey_tick` at the instruction `F30A` with no key pressed,
together with the evaluation of one `Tick` when keys `5` and `9` are pressed:
`V3 = 5` and `pc = 0x202`. -/
theorem waitKey_tick_witness :
    (3 < 16 ∧ waitKeyState.programCount + 1 < 4096 ∧
      waitKeyState.ram waitKeyState.programCount = 0xF0 + 3 ∧
      waitKeyState.ram (waitKeyState.programCount + 1) = 0x0A) ∧
    (((∀ i, i < 16 → waitKeyState.keys i = false) →
      Tick sampleExtern waitKeyState = some waitKeyState ∧
        ∀ n, ticks sampleExtern n waitKeyState = some waitKeyState) ∧
    ((∃ i, i < 16 ∧ waitKeyState.keys i = true) →
      ∃ k, k < 16 ∧ waitKeyState.keys k = true ∧ (∀ i, i < k → waitKeyState.keys i = false) ∧
        Tick sampleExtern waitKeyState = some { waitKeyState with
          programCount := waitKeyState.programCount + 2
          valueRegisters := setAt waitKeyState.valueRegisters 3 k })) ∧
    (∃ e', Tick sampleExtern keyDownState = some e' ∧ e'.valueRegisters 3 = 5 ∧
      e'.programCount = 0x202) :=
  ⟨⟨by decide, by decide, rfl, rfl⟩,
    waitKey_tick sampleExtern waitKeyState 3 (by decide) (by decide) rfl rfl,
    ⟨_, rfl, rfl, rfl⟩⟩

/-! ## A two-instruction program -/



theorem Execute_6XNN (ext : Extern) (e : Emulator) (X NN : Nat) (hX : X < 16) (hNN : NN < 256) :
    Execute ext e (0x6000 + 0x100 * X + NN) =
      some ({ e with valueRegisters := setAt e.valueRegisters X NN }, none) := by
  have h1 : ((0x6000 + 0x100 * X + NN) &&& 0xF000) >>> 12 = 6 := by rw [decode_b1]; omega
  have h2 : ((0x6000 + 0x100 * X + NN) &&& 0x0F00) >>> 8 = X := by rw [decode_b2]; omega
  have h3 : ((0x6000 + 0x100 * X + NN) &&& 0xFF) % 256 = NN := by rw [decode_nn]; omega
  simp only [Execute, h1, h2, h3]
  simp

theorem Execute_7XNN (ext : Extern) (e : Emulator) (X NN : Nat) (hX : X < 16) (hNN : NN < 256) :
    Execute ext e (0x7000 + 0x100 * X + NN) =
      some ({ e with
        valueRegisters := setAt e.valueRegisters X ((e.valueRegisters X + NN) % 256) }, none) := by
  have h1 : ((0x7000 + 0x100 * X + NN) &&& 0xF000) >>> 12 = 7 := by rw [decode_b1]; omega
  have h2 : ((0x7000 + 0x100 * X + NN) &&& 0x0F00) >>> 8 = X := by rw [decode_b2]; omega
  have h3 : ((0x7000 + 0x100 * X + NN) &&& 0xFF) % 256 = NN := by rw [decode_nn]; omega
  simp only [Execute, h1, h2, h3]
  simp

theorem Tick_6XNN (ext : Extern) (e : Emulator) (X NN : Nat) (hX : X < 16) (hNN : NN < 256)
    (hpc : e.programCount + 1 < 4096) (hhi : e.ram e.programCount = 0x60 + X)
    (hlo : e.ram (e.programCount + 1) = NN) :
    Tick ext e = some { e with
      programCount := e.programCount + 2
      valueRegisters := setAt e.valueRegisters X NN } := by
  have hfetch := Fetch_word e hpc (by rw [hhi]; omega) (by rw [hlo]; omega)
  have hword : e.ram e.programCount * 256 + e.ram (e.programCount + 1) =
      0x6000 + 0x100 * X + NN := by rw [hhi, hlo]; omega
  rw [hword] at hfetch
  simp only [Tick, hfetch, Option.some_bind, Execute_6XNN ext _ X NN hX hNN, Option.map_some']

theorem Tick_7XNN (ext : Extern) (e : Emulator) (X NN : Nat) (hX : X < 16) (hNN : NN < 256)
    (hpc : e.programCount + 1 < 4096) (hhi : e.ram e.programCount = 0x70 + X)
    (hlo : e.ram (e.programCount + 1) = NN) :
    Tick ext e = some { e with
      programCount := e.programCount + 2
      valueRegisters := setAt e.valueRegisters X ((e.valueRegisters X + NN) % 256) } := by
  have hfetch := Fetch_word e hpc (by rw [hhi]; omega) (by rw [hlo]; omega)
  have hword : e.ram e.programCount * 256 + e.ram (e.programCount + 1) =
      0x7000 + 0x100 * X + NN := by rw [hhi, hlo]; omega
  rw [hword] at hfetch
  simp only [Tick, hfetch, Option.some_bind, Execute_7XNN ext _ X NN hX hNN, Option.map_some']

/-- Claim C14: for every register index `X` and bytes `NN`, `MM`, starting
from `NewEmulator()` (whatever the font table), `Load` of the bytes
`6X NN 7X MM` followed by two `Tick`s succeeds and leaves
`VX = (NN + MM) mod 256`, `pc = 0x204` and every other value register `0`. -/
theorem load_set_add (FontSet : List Nat) (ext : Extern) (X NN MM : Nat) (hX : X < 16)
    (hNN : NN < 256) (hMM : MM < 256) :
    ∃ e0 e1 e2, Load (NewEmulator FontSet) [0x60 + X, NN, 0x70 + X, MM] = some e0 ∧
      Tick ext e0 = some e1 ∧ Tick ext e1 = some e2 ∧
      e2.valueRegisters X = (NN + MM) % 256 ∧ e2.programCount = 0x204 ∧
      ∀ j, j ≠ X → e2.valueRegisters j = 0 := by
  obtain ⟨e0, hload, hdata, -, hrest⟩ :=
    Load_image (NewEmulator FontSet) [0x60 + X, NN, 0x70 + X, MM] (by simp)
  have hr0 : e0.ram 0x200 = 0x60 + X := hdata 0 (by simp)
  have hr1 : e0.ram 0x201 = NN := hdata 1 (by simp)
  have hr2 : e0.ram 0x202 = 0x70 + X := hdata 2 (by simp)
  have hr3 : e0.ram 0x203 = MM := hdata 3 (by simp)
  have hpc0 : e0.programCount = 0x200 := by rw [hrest]; rfl
  have hregs0 : e0.valueRegisters = fun _ => 0 := by rw [hrest]; rfl
  have ht1 := Tick_6XNN ext e0 X NN hX hNN (by rw [hpc0]; decide)
    (by rw [hpc0]; exact hr0) (by rw [hpc0]; exact hr1)
  have ht2 := Tick_7XNN ext
    { e0 with programCount := e0.programCount + 2, valueRegisters := setAt e0.valueRegisters X NN }
    X MM hX hMM
    (show e0.programCount + 2 + 1 < 4096 by rw [hpc0]; decide)
    (show e0.ram (e0.programCount + 2) = 0x70 + X by rw [hpc0]; exact hr2)
    (show e0.ram (e0.programCount + 2 + 1) = MM by rw [hpc0]; exact hr3)
  refine ⟨e0, _, _, hload, ht1, ht2, ?_, ?_, ?_⟩
  · show setAt (setAt e0.valueRegisters X NN) X
      ((setAt e0.valueRegisters X NN X + MM) % 256) X = _
    simp [setAt_apply]
  · show e0.programCount + 2 + 2 = 0x204
    rw [hpc0]
  · intro j hj
    show setAt (setAt e0.valueRegisters X NN) X
      ((setAt e0.valueRegisters X NN X + MM) % 256) j = _
    simp [setAt_apply, hj, hregs0]

/-- Instance of `load_set_add` at the program `6005 7003`: `V0 = (5 + 3) mod
256`. -/
theorem load_set_add_witness :
    (0 < 16 ∧ 5 < 256 ∧ 3 < 256) ∧
    ∃ e0 e1 e2, Load (NewEmulator []) [0x60 + 0, 5, 0x70 + 0, 3] = some e0 ∧
      Tick sampleExtern e0 = some e1 ∧ Tick sampleExtern e1 = some e2 ∧
      e2.valueRegisters 0 = (5 + 3) % 256 ∧ e2.programCount = 0x204 ∧
      ∀ j, j ≠ 0 → e2.valueRegisters j = 0 :=
  ⟨⟨by decide, by decide, by decide⟩,
    load_set_add [] sampleExtern 0 5 3 (by decide) (by decide) (by decide)⟩

/-! ## Dropped diagnostics and the unreported key -/

/-- Claim C11 fails on the code: `Tick` calls `Execute` and drops the error
it returns.  For the state whose next word is `8008`, `Execute` returns the
error `unsupported opcode 8008`, yet `Tick` yields only the state with `pc`
advanced; the state whose next word is the supported `F255` (which here writes
the bytes `80 08` over itself) yields exactly the same result, so nothing in
what `Tick` leaves behind tells a rejected word from an accepted one. -/
theorem Tick_drops_error :
    (Fetch rejectedWordState =
        some ({ rejectedWordState with programCount := 0x202 }, 0x8008) ∧
      Execute sampleExtern { rejectedWordState with programCount := 0x202 } 0x8008 =
        some ({ rejectedWordState with programCount := 0x202 },
          some "unsupported opcode 8008") ∧
      Tick sampleExtern rejectedWordState =
        some { rejectedWordState with programCount := 0x202 }) ∧
    (∃ e1 e2, Fetch acceptedWordState = some (e1, 0xF255) ∧
      Execute sampleExtern e1 0xF255 = some (e2, none)) ∧
    Tick sampleExtern rejectedWordState = Tick sampleExtern acceptedWordState := by
  refine ⟨⟨rfl, rfl, rfl⟩, ⟨_, _, rfl, rfl⟩, ?_⟩
  have hA : Tick sampleExtern rejectedWordState =
      some { rejectedWordState with programCount := 0x202 } := rfl
  have hB : Tick sampleExtern acceptedWordState =
      some { acceptedWordState with
        programCount := 0x202
        ram := setAt (setAt acceptedWordState.ram 0x200 0x80) 0x201 0x08 } := rfl
  rw [hA, hB]
  have hram : rejectedWordState.ram =
      setAt (setAt acceptedWordState.ram 0x200 0x80) 0x201 0x08 := by
    funext j
    simp only [rejectedWordState, acceptedWordState, setAt_apply]
    split_ifs <;> rfl
  rw [← hram]
  rfl

theorem hostKeyEvent_key_zero (e e' : Emulator) (key : Keycode) (pressed : Bool)
    (h : hostKeyEvent e key pressed = some e') : e'.keys 0 = e.keys 0 := by
  unfold hostKeyEvent at h
  dsimp only at h
  split_ifs at h with hb
  · unfold Input at h
    split_ifs at h
    cases h
    have hne : (0 : Nat) ≠ (key2Button key).toNat := by omega
    simp [setAt_apply, hne]
  · cases h; rfl

/-- Claim C20 fails on the code: `key2Button` is injective on the mapped keys
and takes every value in `0..15` (unmapped keys give `-1`), but the loop
forwards a key only when `button > 0`.  The key `K_x`, mapped to index `0`, is
never forwarded, and no key event changes key flag `0`. -/
theorem key_zero_not_forwarded :
    (∀ a b, 0 ≤ key2Button a → key2Button a = key2Button b → a = b) ∧
    (∀ k : Int, 0 ≤ k → k < 16 → ∃ key, key2Button key = k) ∧
    (∀ key, key2Button key = -1 ∨ (0 ≤ key2Button key ∧ key2Button key < 16)) ∧
    key2Button Keycode.K_x = 0 ∧
    (∀ (e : Emulator) (pressed : Bool), hostKeyEvent e Keycode.K_x pressed = some e) ∧
    (∀ (e e' : Emulator) (key : Keycode) (pressed : Bool),
      hostKeyEvent e key pressed = some e' → e'.keys 0 = e.keys 0) := by
  refine ⟨?_, ?_, ?_, rfl, fun e pressed => rfl, hostKeyEvent_key_zero⟩
  · intro a b ha hab
    cases a <;> cases b <;> first | rfl | (exfalso; simp [key2Button] at ha hab)
  · intro k h0 h16
    have hk : k = 0 ∨ k = 1 ∨ k = 2 ∨ k = 3 ∨ k = 4 ∨ k = 5 ∨ k = 6 ∨ k = 7 ∨ k = 8 ∨ k = 9 ∨
        k = 10 ∨ k = 11 ∨ k = 12 ∨ k = 13 ∨ k = 14 ∨ k = 15 := by omega
    rcases hk with h | h | h | h | h | h | h | h | h | h | h | h | h | h | h | h <;> subst h
    · exact ⟨.K_x, rfl⟩
    · exact ⟨.K_1, rfl⟩
    · exact ⟨.K_2, rfl⟩
    · exact ⟨.K_3, rfl⟩
    · exact ⟨.K_q, rfl⟩
    · exact ⟨.K_w, rfl⟩
    · exact ⟨.K_e, rfl⟩
    · exact ⟨.K_a, rfl⟩
    · exact ⟨.K_s, rfl⟩
    · exact ⟨.K_d, rfl⟩
    · exact ⟨.K_z, rfl⟩
    · exact ⟨.K_c, rfl⟩
    · exact ⟨.K_4, rfl⟩
    · exact ⟨.K_r, rfl⟩
    · exact ⟨.K_f, rfl⟩
    · exact ⟨.K_v, rfl⟩
  · intro key
    cases key <;> simp [key2Button]

end Chip8
